import Mathlib

/-!
# Catalog write path of ETHEREAL_BACKEND_CODE

A shallow embedding of `src/controllers/catalogController.js`, of the upload
middleware and error handler of `src/routes/catalogRoute.js`, of the
middleware `sanitizeInput` of `src/app.js`, and of the JavaScript built-ins those functions call on request data (`JSON.parse`,
`Array.isArray`, truthiness, `.length`, spread).

Conventions.
* Request data are `JsVal`s.  A number is kept as the exact decimal
  `m * 10 ^ e` of its literal; IEEE-754 rounding is not modelled.
* A JavaScript string is a Lean `String`; a lone surrogate written with a
  `\u` escape is decoded to U+FFFD.
* The Record Store (mongoose / MongoDB) and the Object Store (Cloudinary) are
  external.  Whether one of their calls succeeds is decided by an `Env` of
  oracles that see the whole history (`World`), so a theorem quantified over
  `Env` holds for every behaviour of the two stores.
* Every external call is appended to `World.calls` in program order.
-/

namespace Ethereal

/-! ## JavaScript values -/

/-- JavaScript values that can occur in a parsed request. -/
inductive JsVal where
  | undefined : JsVal
  | null : JsVal
  | bool (b : Bool) : JsVal
  | num (m : Int) (e : Int) : JsVal
  | str (s : String) : JsVal
  | arr (xs : List JsVal) : JsVal
  | obj (kvs : List (String × JsVal)) : JsVal

instance : Inhabited JsVal := ⟨JsVal.undefined⟩

/-! ### Decidable equality of values -/

mutual
def JsVal.beq : JsVal → JsVal → Bool
  | .undefined, .undefined => true
  | .null, .null => true
  | .bool a, .bool b => a == b
  | .num m e, .num m2 e2 => m == m2 && e == e2
  | .str s, .str t => s == t
  | .arr xs, .arr ys => beqList xs ys
  | .obj xs, .obj ys => beqMembers xs ys
  | _, _ => false
def beqList : List JsVal → List JsVal → Bool
  | [], [] => true
  | x :: xs, y :: ys => JsVal.beq x y && beqList xs ys
  | _, _ => false
def beqMembers : List (String × JsVal) → List (String × JsVal) → Bool
  | [], [] => true
  | (k, x) :: xs, (l, y) :: ys => k == l && JsVal.beq x y && beqMembers xs ys
  | _, _ => false
end

mutual
theorem JsVal.eq_of_beq : ∀ (a b : JsVal), JsVal.beq a b = true → a = b
  | .undefined, b, h => by cases b <;> simp_all [JsVal.beq]
  | .null, b, h => by cases b <;> simp_all [JsVal.beq]
  | .bool x, b, h => by cases b <;> simp_all [JsVal.beq]
  | .num m e, b, h => by cases b <;> simp_all [JsVal.beq]
  | .str s, b, h => by cases b <;> simp_all [JsVal.beq]
  | .arr xs, .arr ys, h => by
      have := eq_of_beqList xs ys (by simpa [JsVal.beq] using h)
      rw [this]
  | .arr xs, .undefined, h | .arr xs, .null, h | .arr xs, .bool _, h | .arr xs, .num _ _, h
  | .arr xs, .str _, h | .arr xs, .obj _, h => by simp [JsVal.beq] at h
  | .obj xs, .obj ys, h => by
      have := eq_of_beqMembers xs ys (by simpa [JsVal.beq] using h)
      rw [this]
  | .obj xs, .undefined, h | .obj xs, .null, h | .obj xs, .bool _, h | .obj xs, .num _ _, h
  | .obj xs, .str _, h | .obj xs, .arr _, h => by simp [JsVal.beq] at h
theorem eq_of_beqList : ∀ (xs ys : List JsVal), beqList xs ys = true → xs = ys
  | [], [], _ => rfl
  | [], _ :: _, h => by simp [beqList] at h
  | _ :: _, [], h => by simp [beqList] at h
  | x :: xs, y :: ys, h => by
      simp only [beqList, Bool.and_eq_true] at h
      rw [JsVal.eq_of_beq x y h.1, eq_of_beqList xs ys h.2]
theorem eq_of_beqMembers : ∀ (xs ys : List (String × JsVal)), beqMembers xs ys = true → xs = ys
  | [], [], _ => rfl
  | [], _ :: _, h => by simp [beqMembers] at h
  | _ :: _, [], h => by simp [beqMembers] at h
  | (k, x) :: xs, (l, y) :: ys, h => by
      simp only [beqMembers, Bool.and_eq_true, beq_iff_eq] at h
      rw [h.1.1, JsVal.eq_of_beq x y h.1.2, eq_of_beqMembers xs ys h.2]
end

mutual
theorem JsVal.beq_self : ∀ (a : JsVal), JsVal.beq a a = true
  | .undefined => by simp [JsVal.beq]
  | .null => by simp [JsVal.beq]
  | .bool _ => by simp [JsVal.beq]
  | .num _ _ => by simp [JsVal.beq]
  | .str _ => by simp [JsVal.beq]
  | .arr xs => by simpa [JsVal.beq] using beqList_self xs
  | .obj xs => by simpa [JsVal.beq] using beqMembers_self xs
theorem beqList_self : ∀ (xs : List JsVal), beqList xs xs = true
  | [] => by simp [beqList]
  | x :: xs => by simp [beqList, JsVal.beq_self x, beqList_self xs]
theorem beqMembers_self : ∀ (xs : List (String × JsVal)), beqMembers xs xs = true
  | [] => by simp [beqMembers]
  | (k, x) :: xs => by simp [beqMembers, JsVal.beq_self x, beqMembers_self xs]
end

instance : DecidableEq JsVal := fun a b =>
  if h : JsVal.beq a b = true then isTrue (JsVal.eq_of_beq a b h)
  else isFalse (fun e => h (e ▸ JsVal.beq_self a))

/-- Own-property read on an object literal: `o[k]`, `none` when `k` is not an own key. -/
def getKey (k : String) : List (String × JsVal) → Option JsVal
  | [] => none
  | (k1, v) :: rest => if k1 = k then some v else getKey k rest

/-- Own-property write `o[k] = v`: an existing key keeps its position. -/
def setKey (k : String) (v : JsVal) : List (String × JsVal) → List (String × JsVal)
  | [] => [(k, v)]
  | (k1, v1) :: rest => if k1 = k then (k, v) :: rest else (k1, v1) :: setKey k v rest

/-- Property read `o.k` on a plain object: a missing key reads as `undefined`. -/
def field (o : List (String × JsVal)) (k : String) : JsVal :=
  (getKey k o).getD JsVal.undefined

/-- ToBoolean. -/
def truthy : JsVal → Bool
  | .undefined => false
  | .null => false
  | .bool b => b
  | .num m _ => m != 0
  | .str s => s != ""
  | .arr _ => true
  | .obj _ => true

/-- Array.isArray. -/
def isArray : JsVal → Bool
  | .arr _ => true
  | _ => false

/-- Number of UTF-16 code units of a string (what `.length` of a string counts). -/
def utf16Length (s : String) : Nat :=
  (s.toList.map (fun c => if c.toNat < 65536 then 1 else 2)).sum

/-- Property read `v.length`.  `none` is the TypeError thrown when `v` is
`null` or `undefined`. -/
def getLength : JsVal → Option JsVal
  | .undefined => none
  | .null => none
  | .bool _ => some .undefined
  | .num _ _ => some .undefined
  | .str s => some (.num (utf16Length s) 0)
  | .arr xs => some (.num xs.length 0)
  | .obj kvs => some (field kvs "length")

/-- Strict comparison `v === 0`. -/
def strictEqZero : JsVal → Bool
  | .num m _ => m == 0
  | _ => false

/-! ## Number to string -/

/-- Decimal digits of a natural number, without trailing zeros, together with
the number of zeros removed. -/
def stripZeros : Nat → List Char → List Char × Nat
  | k, [] => ([], k)
  | k, c :: cs => if c = '0' then stripZeros (k + 1) cs else (c :: cs, k)

/-- Number::toString for the exact decimal `m * 10 ^ e`. -/
def numToString (m e : Int) : String :=
  if m = 0 then "0" else
  let sign := if m < 0 then "-" else ""
  let st := stripZeros 0 (Nat.toDigits 10 m.natAbs).reverse
  let ds := st.1.reverse
  let k : Int := ds.length
  let n : Int := k + e + st.2
  let body :=
    if k ≤ n ∧ n ≤ 21 then String.mk (ds ++ List.replicate (n - k).toNat '0')
    else if 0 < n ∧ n ≤ 21 then
      String.mk (ds.take n.toNat ++ ['.'] ++ ds.drop n.toNat)
    else if -6 < n ∧ n ≤ 0 then
      String.mk (['0', '.'] ++ List.replicate (-n).toNat '0' ++ ds)
    else
      let ex := n - 1
      let exs := (if ex < 0 then "-" else "+") ++ String.mk (Nat.toDigits 10 ex.natAbs)
      match ds with
      | [d] => String.mk [d] ++ "e" ++ exs
      | d :: rest => String.mk (d :: '.' :: rest) ++ "e" ++ exs
      | [] => ""
  sign ++ body

/-! ## ToString -/

mutual
/-- ToString of a request value.  `none` is the TypeError "Cannot convert
object to primitive value", thrown for an object that has an own `toString`
key (its value is data, never callable). -/
def toStr : JsVal → Option String
  | .undefined => some "undefined"
  | .null => some "null"
  | .bool b => some (if b then "true" else "false")
  | .num m e => some (numToString m e)
  | .str s => some s
  | .arr xs => joinStr xs
  | .obj kvs => if (getKey "toString" kvs).isSome then none else some "[object Object]"
/-- Array.prototype.join with the default separator: `null` and `undefined`
elements print as the empty string. -/
def joinStr : List JsVal → Option String
  | [] => some ""
  | x :: rest =>
    let head : Option String :=
      match x with
      | .undefined => some ""
      | .null => some ""
      | y => toStr y
    match head, rest with
    | none, _ => none
    | some a, [] => some a
    | some a, r :: rs =>
      match joinStr (r :: rs) with
      | none => none
      | some b => some (a ++ "," ++ b)
end

/-! ## JSON.parse -/

def isWs (c : Char) : Bool :=
  c.toNat == 32 || c.toNat == 9 || c.toNat == 10 || c.toNat == 13

def isDigit (c : Char) : Bool := 48 ≤ c.toNat && c.toNat ≤ 57

def skipWs : List Char → List Char
  | [] => []
  | c :: cs => if isWs c then skipWs cs else c :: cs

def hexVal (c : Char) : Option Nat :=
  if 48 ≤ c.toNat ∧ c.toNat ≤ 57 then some (c.toNat - 48)
  else if 97 ≤ c.toNat ∧ c.toNat ≤ 102 then some (c.toNat - 87)
  else if 65 ≤ c.toNat ∧ c.toNat ≤ 70 then some (c.toNat - 55)
  else none

/-- Four hexadecimal digits of a `\u` escape. -/
def hex4 : List Char → Option (Nat × List Char)
  | a :: b :: c :: d :: rest =>
    match hexVal a, hexVal b, hexVal c, hexVal d with
    | some x1, some x2, some x3, some x4 => some (((x1 * 16 + x2) * 16 + x3) * 16 + x4, rest)
    | _, _, _, _ => none
  | _ => none

/-- The character named by a one-letter escape. -/
def unescape (c : Char) : Option Char :=
  if c.toNat = 34 then some (Char.ofNat 34)
  else if c.toNat = 92 then some (Char.ofNat 92)
  else if c.toNat = 47 then some (Char.ofNat 47)
  else if c.toNat = 98 then some (Char.ofNat 8)
  else if c.toNat = 102 then some (Char.ofNat 12)
  else if c.toNat = 110 then some (Char.ofNat 10)
  else if c.toNat = 114 then some (Char.ofNat 13)
  else if c.toNat = 116 then some (Char.ofNat 9)
  else none

/-- Code point of a `\u` escape whose value is `u`, given the input after it. -/
def unicodeEscape (u : Nat) (rest : List Char) : Nat × List Char :=
  if 55296 ≤ u ∧ u < 56320 then
    match rest with
    | b :: c :: rest2 =>
      if b.toNat = 92 ∧ c.toNat = 117 then
        match hex4 rest2 with
        | some (lo, rest3) =>
          if 56320 ≤ lo ∧ lo < 57344 then
            (65536 + (u - 55296) * 1024 + (lo - 56320), rest3)
          else (65533, rest)
        | none => (65533, rest)
      else (65533, rest)
    | _ => (65533, rest)
  else if 56320 ≤ u ∧ u < 57344 then (65533, rest)
  else (u, rest)

/-- Body of a JSON string, after the opening quote.  `acc` holds the
characters read so far, last first. -/
def parseStr : Nat → List Char → List Char → Option (String × List Char)
  | 0, _, _ => none
  | _ + 1, [], _ => none
  | n + 1, c :: cs, acc =>
    if c.toNat = 34 then some (String.mk acc.reverse, cs)
    else if c.toNat = 92 then
      match cs with
      | [] => none
      | e :: cs1 =>
        if e.toNat = 117 then
          match hex4 cs1 with
          | none => none
          | some (u, cs2) =>
            let r := unicodeEscape u cs2
            parseStr n r.2 (Char.ofNat r.1 :: acc)
        else
          match unescape e with
          | none => none
          | some ch => parseStr n cs1 (ch :: acc)
    else if c.toNat < 32 then none
    else parseStr n cs (c :: acc)

def spanDigits : List Char → List Char × List Char
  | [] => ([], [])
  | c :: cs =>
    if isDigit c then (c :: (spanDigits cs).1, (spanDigits cs).2)
    else ([], c :: cs)

def digitsToNat (ds : List Char) : Nat :=
  ds.foldl (fun a c => a * 10 + (c.toNat - 48)) 0

/-- Integer part of a JSON number: `0`, or a non-zero digit followed by digits. -/
def parseIntPart : List Char → Option (List Char × List Char)
  | [] => none
  | d :: r =>
    if d.toNat = 48 then some ([d], r)
    else if isDigit d then some (d :: (spanDigits r).1, (spanDigits r).2)
    else none

/-- Optional fraction: the digits after the point. -/
def parseFrac : List Char → Option (List Char × List Char)
  | [] => some ([], [])
  | c :: r =>
    if c.toNat = 46 then
      match spanDigits r with
      | ([], _) => none
      | (ds, r2) => some (ds, r2)
    else some ([], c :: r)

/-- Optional exponent. -/
def parseExp : List Char → Option (Int × List Char)
  | [] => some (0, [])
  | c :: r =>
    if c.toNat = 101 ∨ c.toNat = 69 then
      let sr : Bool × List Char :=
        match r with
        | s :: r1 =>
          if s.toNat = 45 then (true, r1) else if s.toNat = 43 then (false, r1) else (false, r)
        | [] => (false, [])
      match spanDigits sr.2 with
      | ([], _) => none
      | (ds, r2) => some (if sr.1 then -(digitsToNat ds : Int) else (digitsToNat ds : Int), r2)
    else some (0, c :: r)

/-- JSON number literal. -/
def parseNum (cs : List Char) : Option (JsVal × List Char) :=
  let sr : Bool × List Char :=
    match cs with
    | s :: r => if s.toNat = 45 then (true, r) else (false, s :: r)
    | [] => (false, [])
  match parseIntPart sr.2 with
  | none => none
  | some (ip, r1) =>
    match parseFrac r1 with
    | none => none
    | some (fp, r2) =>
      match parseExp r2 with
      | none => none
      | some (ex, r3) =>
        let mant : Int := digitsToNat (ip ++ fp)
        some (JsVal.num (if sr.1 then -mant else mant) (ex - fp.length), r3)

mutual
/-- JSON value.  The first argument bounds the number of nested calls. -/
def parseValue : Nat → List Char → Option (JsVal × List Char)
  | 0, _ => none
  | n + 1, cs =>
    match skipWs cs with
    | [] => none
    | c :: r =>
      if c.toNat = 123 then
        match skipWs r with
        | d :: r2 => if d.toNat = 125 then some (JsVal.obj [], r2) else parseMembers n (d :: r2) []
        | [] => none
      else if c.toNat = 91 then
        match skipWs r with
        | d :: r2 => if d.toNat = 93 then some (JsVal.arr [], r2) else parseElems n (d :: r2) []
        | [] => none
      else if c.toNat = 34 then
        match parseStr (r.length + 1) r [] with
        | some (s, r2) => some (JsVal.str s, r2)
        | none => none
      else if c.toNat = 45 ∨ isDigit c then parseNum (c :: r)
      else if (c :: r).take 4 = ['t', 'r', 'u', 'e'] then some (JsVal.bool true, (c :: r).drop 4)
      else if (c :: r).take 5 = ['f', 'a', 'l', 's', 'e'] then
        some (JsVal.bool false, (c :: r).drop 5)
      else if (c :: r).take 4 = ['n', 'u', 'l', 'l'] then some (JsVal.null, (c :: r).drop 4)
      else none
/-- Elements of a non-empty array, after the opening bracket. -/
def parseElems : Nat → List Char → List JsVal → Option (JsVal × List Char)
  | 0, _, _ => none
  | n + 1, cs, acc =>
    match parseValue n cs with
    | none => none
    | some (v, r) =>
      match skipWs r with
      | c :: r2 =>
        if c.toNat = 44 then parseElems n r2 (v :: acc)
        else if c.toNat = 93 then some (JsVal.arr (v :: acc).reverse, r2)
        else none
      | [] => none
/-- Members of a non-empty object, after the opening brace. -/
def parseMembers : Nat → List Char → List (String × JsVal) → Option (JsVal × List Char)
  | 0, _, _ => none
  | n + 1, cs, acc =>
    match skipWs cs with
    | q :: r0 =>
      if q.toNat = 34 then
        match parseStr (r0.length + 1) r0 [] with
        | none => none
        | some (k, r1) =>
          match skipWs r1 with
          | c :: r2 =>
            if c.toNat = 58 then
              match parseValue n r2 with
              | none => none
              | some (v, r3) =>
                match skipWs r3 with
                | d :: r4 =>
                  if d.toNat = 44 then parseMembers n r4 (setKey k v acc)
                  else if d.toNat = 125 then some (JsVal.obj (setKey k v acc), r4)
                  else none
                | [] => none
            else none
          | [] => none
      else none
    | [] => none
end

/-- JSON.parse on a string: `none` is the SyntaxError. -/
def jsonParseString (s : String) : Option JsVal :=
  match parseValue (2 * s.length + 2) s.toList with
  | some (v, r) =>
    match skipWs r with
    | [] => some v
    | _ :: _ => none
  | none => none

/-- `JSON.parse(v)`: the argument is first converted with ToString.  `none`
is a thrown error (TypeError of the conversion or SyntaxError of the parse). -/
def jsonParse (v : JsVal) : Option JsVal :=
  match toStr v with
  | none => none
  | some s => jsonParseString s

/-- Iteration of a value by spread or `for ... of`: an array yields its
elements, a string its code points; `none` is the TypeError "not iterable". -/
def iterate : JsVal → Option (List JsVal)
  | .arr xs => some xs
  | .str s => some (s.toList.map (fun c => JsVal.str (String.mk [c])))
  | _ => none

/-! ## Requests, stores and responses -/

/-- A stored file as `storage._handleFile` reports it to multer
(catalogRoute.js:47-50): `path` is `result.secure_url`, `filename` is
`result.public_id`. -/
structure UploadedFile where
  path : String
  filename : String
  deriving DecidableEq

/-- An entry of `productImages` as the controller builds it. -/
structure ImageRef where
  url : String
  publicId : String
  isPrimary : Bool
  deriving DecidableEq

/-- The object literal `{ url, publicId, isPrimary }`. -/
def ImageRef.toJs (i : ImageRef) : JsVal :=
  JsVal.obj [("url", JsVal.str i.url), ("publicId", JsVal.str i.publicId),
    ("isPrimary", JsVal.bool i.isPrimary)]

/-- The paths of `catalogSchema` (catalogModel.js:3-61).  The values are kept
as the controller hands them over: casting, trimming and defaults of the
Record Store are not modelled. -/
structure CatalogDoc where
  productName : JsVal
  productPrice : JsVal
  productDescription : JsVal
  category : JsVal
  productImages : JsVal
  colors : JsVal
  sizes : JsVal
  stock : JsVal
  isActive : JsVal
  deriving DecidableEq

/-- A document of the Record Store. -/
structure Record where
  id : String
  doc : CatalogDoc
  deriving DecidableEq

/-- External calls, in the order the program issues them. -/
inductive Call where
  | upload (publicId : String)
  | destroy (publicId : JsVal)
  | save (doc : CatalogDoc)
  | findById (id : String)
  | findByIdAndUpdate (id : String) (updateData : List (String × JsVal))
  | findByIdAndDelete (id : String)
  deriving DecidableEq

/-- State of the two stores and the history of external calls. -/
structure World where
  records : List Record
  objects : List String
  calls : List Call
  deriving DecidableEq

/-- The request as a controller sees it.  `files = none` is `req.files`
undefined (multer did not run on the request, or found no multipart body). -/
structure Req where
  body : List (String × JsVal)
  files : Option (List UploadedFile)
  id : String

/-- The JSON answer of a handler. -/
structure Response where
  status : Nat
  success : Bool
  message : String
  data : Option CatalogDoc
  deriving DecidableEq

/-- An error handed to `next(err)` by the upload middleware. -/
structure MwError where
  multerCode : Option String
  message : String
  deriving DecidableEq

/-- Behaviour of the external collaborators.  Each oracle sees the world at
the time of the call; `some msg` / `error msg` is a rejected call. -/
structure Env where
  findFails : World → String → Option String
  saveFails : World → CatalogDoc → Option String
  newId : World → CatalogDoc → String
  updateFails : World → String → List (String × JsVal) → Option String
  deleteFails : World → String → Option String
  destroyFails : World → JsVal → Bool
  uploadStream : World → String → Except MwError (String × String)
  abortCleanup : World → List UploadedFile → World

def logCall (w : World) (c : Call) : World :=
  { w with calls := w.calls ++ [c] }

def respondFail (status : Nat) (message : String) : Response :=
  { status := status, success := false, message := message, data := none }

def respondOk (status : Nat) (message : String) (data : Option CatalogDoc) : Response :=
  { status := status, success := true, message := message, data := data }

/-! ## Object Store -/

/-- One `await cloudinary.v2.uploader.destroy(x).catch(() => {})`: the call is
issued, and a rejection is swallowed. -/
def destroyOne (env : Env) (w : World) (x : JsVal) : World :=
  if env.destroyFails w x then logCall w (Call.destroy x)
  else { logCall w (Call.destroy x) with objects := w.objects.filter (fun o => JsVal.str o != x) }

/-- The loop `for (const x of xs) await destroy(x).catch(() => {})`. -/
def destroyAll (env : Env) : World → List JsVal → World
  | w, [] => w
  | w, x :: xs => destroyAll env (destroyOne env w x) xs

/-! ## Record Store -/

/-- Modelled from the spec: the Record Store (mongoose model `Catalog`) is an
external collaborator; `findById(id) -> record|absent` (§6). -/
def findRecord (id : String) : List Record → Option Record
  | [] => none
  | r :: rs => if r.id = id then some r else findRecord id rs

/-- `Catalog.findById(id)`: `error` is a rejected query. -/
def findById (env : Env) (w : World) (id : String) : World × Except String (Option Record) :=
  match env.findFails w id with
  | some msg => (logCall w (Call.findById id), Except.error msg)
  | none => (logCall w (Call.findById id), Except.ok (findRecord id w.records))

/-- The world after a successful `save` of `doc`. -/
def stored (env : Env) (w : World) (doc : CatalogDoc) : World :=
  { logCall w (Call.save doc) with
    records := w.records ++ [{ id := env.newId w doc, doc := doc }] }

/-- `new Catalog(doc).save()`: a rejected save (schema validation, cast or
database error) stores nothing. -/
def save (env : Env) (w : World) (doc : CatalogDoc) : World × Except String CatalogDoc :=
  match env.saveFails w doc with
  | some msg => (logCall w (Call.save doc), Except.error msg)
  | none => (stored env w doc, Except.ok doc)

/-- Modelled from the spec: `updateById(id, partial)` is a partial merge (§4.1,
§6): a schema path present in `updateData` overwrites the stored value, every
other path keeps it.  Keys that are not schema paths are dropped. -/
def mergeDoc (d : CatalogDoc) (u : List (String × JsVal)) : CatalogDoc :=
  { productName := (getKey "productName" u).getD d.productName
    productPrice := (getKey "productPrice" u).getD d.productPrice
    productDescription := (getKey "productDescription" u).getD d.productDescription
    category := (getKey "category" u).getD d.category
    productImages := (getKey "productImages" u).getD d.productImages
    colors := (getKey "colors" u).getD d.colors
    sizes := (getKey "sizes" u).getD d.sizes
    stock := (getKey "stock" u).getD d.stock
    isActive := (getKey "isActive" u).getD d.isActive }

def updateRecords (id : String) (u : List (String × JsVal)) : List Record → List Record
  | [] => []
  | r :: rs =>
    if r.id = id then { r with doc := mergeDoc r.doc u } :: rs else r :: updateRecords id u rs

/-- `Catalog.findByIdAndUpdate(id, updateData, { new: true, runValidators: true })`:
a rejected update leaves the store as it was; otherwise the answer is the
updated document, or `null` when the id is absent. -/
def findByIdAndUpdate (env : Env) (w : World) (id : String) (u : List (String × JsVal)) :
    World × Except String (Option CatalogDoc) :=
  match env.updateFails w id u with
  | some msg => (logCall w (Call.findByIdAndUpdate id u), Except.error msg)
  | none =>
    ({ logCall w (Call.findByIdAndUpdate id u) with records := updateRecords id u w.records },
      Except.ok ((findRecord id w.records).map (fun r => mergeDoc r.doc u)))

/-! ## catalogController.createCatalog -/

/-- The `forEach` of createCatalog (lines 71-77) and the `map` of updateCatalog
(lines 198-202), from index `index` on. -/
def pushImages : Nat → List UploadedFile → List ImageRef
  | _, [] => []
  | index, file :: rest =>
    { url := file.path, publicId := file.filename, isPrimary := index == 0 } ::
      pushImages (index + 1) rest

/-- Lines 29-52, for one of `colors` / `sizes`: the value of `parsedColors`
after the `if`, or `none` when the `catch` answers 400. -/
def parseCreate (v : JsVal) : Option JsVal :=
  if truthy v then (if isArray v then some v else jsonParse v) else some (JsVal.arr [])

/-- Lines 68-78: `productImages`. -/
def createImages (files : Option (List UploadedFile)) : List ImageRef :=
  match files with
  | some fs => if fs.length > 0 then pushImages 0 fs else []
  | none => []

/-- Lines 87-97: the argument of `new Catalog`. -/
def newCatalog (body : List (String × JsVal)) (productImages : List ImageRef)
    (parsedColors parsedSizes : JsVal) : CatalogDoc :=
  { productName := field body "productName"
    productPrice := field body "productPrice"
    productDescription := field body "productDescription"
    category := field body "category"
    productImages := JsVal.arr (productImages.map ImageRef.toJs)
    colors := parsedColors
    sizes := parsedSizes
    stock := if truthy (field body "stock") then field body "stock" else JsVal.num 0 0
    isActive := JsVal.bool true }

/-- How lines 20-85 of createCatalog end: with a response, with an exception,
or by going on to `new Catalog` with the two parsed lists. -/
inductive Checked where
  | respond (r : Response)
  | throw (msg : String)
  | pass (parsedColors parsedSizes : JsVal)
  deriving DecidableEq

/-- Lines 20-85 of createCatalog: the checks before `new Catalog`.  They read
the request only. -/
def createChecks (req : Req) : Checked :=
  if !truthy (field req.body "productName") || !truthy (field req.body "productPrice") then
    Checked.respond (respondFail 400 "Nama produk dan harga wajib diisi")
  else
    match parseCreate (field req.body "colors") with
    | none => Checked.respond (respondFail 400 "Format colors tidak valid")
    | some parsedColors =>
      match parseCreate (field req.body "sizes") with
      | none => Checked.respond (respondFail 400 "Format sizes tidak valid")
      | some parsedSizes =>
        match getLength parsedColors with
        | none => Checked.throw "Cannot read properties of null (reading 'length')"
        | some lc =>
          if strictEqZero lc then
            Checked.respond (respondFail 400 "Minimal 1 warna harus ditambahkan")
          else
            match getLength parsedSizes with
            | none => Checked.throw "Cannot read properties of null (reading 'length')"
            | some ls =>
              if strictEqZero ls then
                Checked.respond (respondFail 400 "Minimal 1 ukuran harus ditambahkan")
              else if (createImages req.files).length = 0 then
                Checked.respond (respondFail 400 "Minimal 1 gambar produk harus diupload")
              else Checked.pass parsedColors parsedSizes

/-- The `try` block of createCatalog (lines 9-105).  `error msg` is an
exception that reaches the `catch`. -/
def createTry (env : Env) (w : World) (req : Req) : World × Except String Response :=
  match createChecks req with
  | Checked.respond r => (w, Except.ok r)
  | Checked.throw msg => (w, Except.error msg)
  | Checked.pass parsedColors parsedSizes =>
    match save env w (newCatalog req.body (createImages req.files) parsedColors parsedSizes) with
    | (w1, Except.error msg) => (w1, Except.error msg)
    | (w1, Except.ok doc) =>
      (w1, Except.ok (respondOk 201 "Catalog berhasil ditambahkan" (some doc)))

/-- The `catch` block of createCatalog (lines 107-121). -/
def createCatch (env : Env) (w : World) (req : Req) (msg : String) : World × Response :=
  let w1 :=
    match req.files with
    | some fs =>
      if fs.length != 0 then destroyAll env w (fs.map (fun file => JsVal.str file.filename))
      else w
    | none => w
  (w1, respondFail 500 (if msg != "" then msg else "Gagal menambahkan catalog"))

/-- The handler `catalogController.createCatalog`. -/
def createCatalog (env : Env) (w : World) (req : Req) : World × Response :=
  match createTry env w req with
  | (w1, Except.ok r) => (w1, r)
  | (w1, Except.error msg) => createCatch env w1 req msg

/-! ## catalogController.updateCatalog -/

/-- Lines 189-194, for the key `k` (`colors` or `sizes`): `updateData` after
the `if`, or `none` when `JSON.parse` throws. -/
def parseUpdate (k : String) (body updateData : List (String × JsVal)) :
    Option (List (String × JsVal)) :=
  if truthy (field body k) then
    match jsonParse (field body k) with
    | none => none
    | some v => some (setKey k v updateData)
  else some updateData

/-- Lines 197-210: `updateData` after the image block, or `none` when
`JSON.parse` or the spread throws. -/
def updateImages (req : Req) (updateData : List (String × JsVal)) :
    Option (List (String × JsVal)) :=
  match req.files with
  | none => some updateData
  | some fs =>
    if fs.length != 0 then
      let newImages := (pushImages 0 fs).map ImageRef.toJs
      let existing : Option JsVal :=
        if truthy (field req.body "existingImages") then jsonParse (field req.body "existingImages")
        else some (JsVal.arr [])
      match existing with
      | none => none
      | some existingImages =>
        match iterate existingImages with
        | none => none
        | some ex => some (setKey "productImages" (JsVal.arr (ex ++ newImages)) updateData)
    else some updateData

/-- Lines 213-218: the list the delete loop runs over (`[]` when
`deletedImages` is absent), or `none` when `JSON.parse` or the iteration throws. -/
def deleteList (body : List (String × JsVal)) : Option (List JsVal) :=
  if truthy (field body "deletedImages") then
    match jsonParse (field body "deletedImages") with
    | none => none
    | some v => iterate v
  else some []

/-- Lines 186-214 of updateCatalog, which read the request only: `updateData`
and the list of the delete loop, or the exception thrown on the way.  The
text of an engine error message is not modelled. -/
def updatePlan (req : Req) : Except String (List (String × JsVal) × List JsVal) :=
  match parseUpdate "colors" req.body req.body with
  | none => Except.error "JSON.parse(req.body.colors)"
  | some u1 =>
    match parseUpdate "sizes" req.body u1 with
    | none => Except.error "JSON.parse(req.body.sizes)"
    | some u2 =>
      match updateImages req u2 with
      | none => Except.error "existingImages"
      | some updateData =>
        match deleteList req.body with
        | none => Except.error "deletedImages"
        | some ids => Except.ok (updateData, ids)

/-- The `try` block of updateCatalog (lines 177-230). -/
def updateTry (env : Env) (w : World) (req : Req) : World × Except String Response :=
  match findById env w req.id with
  | (w0, Except.error msg) => (w0, Except.error msg)
  | (w0, Except.ok none) => (w0, Except.ok (respondFail 404 "Catalog tidak ditemukan"))
  | (w0, Except.ok (some _)) =>
    match updatePlan req with
    | Except.error msg => (w0, Except.error msg)
    | Except.ok (updateData, ids) =>
      match findByIdAndUpdate env (destroyAll env w0 ids) req.id updateData with
      | (w2, Except.error msg) => (w2, Except.error msg)
      | (w2, Except.ok updated) =>
        (w2, Except.ok (respondOk 200 "Catalog berhasil diupdate" updated))

/-- The handler `catalogController.updateCatalog`; its `catch` (lines 232-237)
answers 400 with the message of the error. -/
def updateCatalog (env : Env) (w : World) (req : Req) : World × Response :=
  match updateTry env w req with
  | (w1, Except.ok r) => (w1, r)
  | (w1, Except.error msg) => (w1, respondFail 400 msg)

/-! ## catalogRoute: upload middleware and error handler -/

/-- The function `storage._handleFile` (catalogRoute.js:31-55) for the file named
`originalname`: a successful `upload_stream` creates the object
`result.public_id` and reports `{ path, filename }`; a failure is passed to `cb`. -/
def handleFile (env : Env) (w : World) (originalname : String) :
    World × Except MwError UploadedFile :=
  match env.uploadStream w originalname with
  | Except.error e => (w, Except.error e)
  | Except.ok (secureUrl, publicId) =>
    ({ logCall w (Call.upload publicId) with objects := w.objects ++ [publicId] },
      Except.ok { path := secureUrl, filename := publicId })

/-- The middleware `upload.array("images", 10)` on the file parts of a multipart
request, taken in order.  An error outcome of `uploadStream` stands for any
failure reported for that file (file filter, limits, Object Store).  What
multer then does with the files already stored is library code: it is the
oracle `abortCleanup`. -/
def uploadArray (env : Env) : World → List String → List UploadedFile →
    World × Except MwError (List UploadedFile)
  | w, [], acc => (w, Except.ok acc)
  | w, f :: fs, acc =>
    match handleFile env w f with
    | (w1, Except.error e) => (env.abortCleanup w1 acc, Except.error e)
    | (w1, Except.ok u) => uploadArray env w1 fs (acc ++ [u])

/-- The error handler of the router (catalogRoute.js:152-189). -/
def errorHandler (err : MwError) : Response :=
  match err.multerCode with
  | some code =>
    if code = "LIMIT_FILE_SIZE" then respondFail 400 "Ukuran file terlalu besar. Maksimal 5MB per file."
    else if code = "LIMIT_FILE_COUNT" then respondFail 400 "Terlalu banyak file. Maksimal 10 gambar."
    else if code = "LIMIT_UNEXPECTED_FILE" then
      respondFail 400 "Field name tidak sesuai. Gunakan 'images' untuk upload."
    else respondFail 400 err.message
  | none => respondFail 400 (if err.message != "" then err.message else "Terjadi kesalahan pada server")

/-- The route `POST /` (catalogRoute.js:123-127): the upload middleware, then
createCatalog.  `parts = none` is a request without a multipart body, which
multer passes on untouched. -/
def postCatalog (env : Env) (w : World) (body : List (String × JsVal))
    (parts : Option (List String)) : World × Response :=
  match parts with
  | none => createCatalog env w { body := body, files := none, id := "" }
  | some fs =>
    match uploadArray env w fs [] with
    | (w1, Except.error e) => (w1, errorHandler e)
    | (w1, Except.ok files) => createCatalog env w1 { body := body, files := some files, id := "" }

/-- The route `PATCH /:id` (catalogRoute.js:88-109, 130-134): the middleware
`optionalUpload`, then updateCatalog.  `parts = none` is a request without a
multipart body.  An error with the multer code `LIMIT_UNEXPECTED_FILE` is
dropped and the handler runs; `abortedFiles` is `req.files` as multer leaves
it in that case, which is library behaviour.  Every other error goes to the
error handler of the router. -/
def patchCatalog (env : Env) (w : World) (id : String) (body : List (String × JsVal))
    (parts : Option (List String)) (abortedFiles : Option (List UploadedFile)) :
    World × Response :=
  match parts with
  | none => updateCatalog env w { body := body, files := none, id := id }
  | some fs =>
    match uploadArray env w fs [] with
    | (w1, Except.error e) =>
      if e.multerCode = some "LIMIT_UNEXPECTED_FILE" then
        updateCatalog env w1 { body := body, files := abortedFiles, id := id }
      else (w1, errorHandler e)
    | (w1, Except.ok files) =>
      updateCatalog env w1 { body := body, files := some files, id := id }

/-! ## Sample stores and requests -/

/-- Stores in which every call succeeds. -/
def envOk : Env :=
  { findFails := fun _ _ => none
    saveFails := fun _ _ => none
    newId := fun w _ => String.mk (Nat.toDigits 10 w.records.length)
    updateFails := fun _ _ _ => none
    deleteFails := fun _ _ => none
    destroyFails := fun _ _ => false
    uploadStream := fun _ n => Except.ok ("https://cdn/" ++ n, "katalog-" ++ n)
    abortCleanup := fun w _ => w }

/-- Stores in which the Record Store rejects every write. -/
def envNoWrite : Env :=
  { envOk with
    saveFails := fun _ _ => some "write failed"
    updateFails := fun _ _ _ => some "write failed" }

def emptyWorld : World := { records := [], objects := [], calls := [] }

/-- The fields of the scenario "Shirt A" of the specification, as a multipart
form delivers them. -/
def shirtBody : List (String × JsVal) :=
  [("productName", JsVal.str "Shirt A"), ("productPrice", JsVal.str "100000"),
    ("productDescription", JsVal.str "A shirt"),
    ("colors", JsVal.str "[\"red\",\"blue\"]"), ("sizes", JsVal.str "[\"M\",\"L\"]")]

def twoFiles : List UploadedFile :=
  [{ path := "https://cdn/a.png", filename := "katalog-a" },
    { path := "https://cdn/b.png", filename := "katalog-b" }]

def shirtReq : Req := { body := shirtBody, files := some twoFiles, id := "" }

/-- Stores in which every write and every Object Store delete is rejected. -/
def envAllFail : Env :=
  { envNoWrite with destroyFails := fun _ _ => true }

/-- The "Shirt A" form without its `productName` field. -/
def namelessBody : List (String × JsVal) :=
  [("productPrice", JsVal.str "100000"), ("productDescription", JsVal.str "A shirt"),
    ("colors", JsVal.str "[\"red\",\"blue\"]"), ("sizes", JsVal.str "[\"M\",\"L\"]")]

/-- The "Shirt A" request with its `colors` field replaced. -/
def shirtWithColors (colors : JsVal) : Req :=
  { body := setKey "colors" colors shirtBody, files := some twoFiles, id := "" }

/-- The validator `min: [0, "Harga tidak boleh negatif."]` of
`catalogSchema.productPrice` (catalogModel.js:11-15), on a price that is a
number or a text holding a decimal numeral. -/
def priceBelowMin : JsVal → Bool
  | .num m _ => m < 0
  | .str s =>
    match parseNum s.toList with
    | some (.num m _, []) => m < 0
    | _ => false
  | _ => false

/-- Stores in which every call succeeds, except that the Record Store runs the
`min` validator of `productPrice` on a save. -/
def envSchema : Env :=
  { envOk with
    saveFails := fun _ doc =>
      if priceBelowMin doc.productPrice then some "Harga tidak boleh negatif." else none }

/-- The "Shirt A" request with its `productPrice` field replaced. -/
def shirtWithPrice (price : JsVal) : Req :=
  { body := setKey "productPrice" price shirtBody, files := some twoFiles, id := "" }

def imageX1 : ImageRef := { url := "https://cdn/x1.png", publicId := "x1", isPrimary := true }

def imageX2 : ImageRef := { url := "https://cdn/x2.png", publicId := "x2", isPrimary := false }

/-- A stored "Shirt A" with the images `x1` (primary) and `x2`. -/
def shirtDoc : CatalogDoc :=
  { productName := JsVal.str "Shirt A"
    productPrice := JsVal.num 100000 0
    productDescription := JsVal.str "A shirt"
    category := JsVal.undefined
    productImages := JsVal.arr [imageX1.toJs, imageX2.toJs]
    colors := JsVal.arr [JsVal.str "red", JsVal.str "blue"]
    sizes := JsVal.arr [JsVal.str "M", JsVal.str "L"]
    stock := JsVal.num 0 0
    isActive := JsVal.bool true }

/-- A world whose Record Store holds `shirtDoc` under the id `1` and whose
Object Store holds its two images. -/
def shirtWorld : World :=
  { records := [{ id := "1", doc := shirtDoc }], objects := ["x1", "x2"], calls := [] }

/-- An update of record `1` that keeps `x1` and uploads one new file. -/
def keepX1AddOne : Req :=
  { body := [("existingImages", JsVal.str
      "[\x7b\"url\":\"https://cdn/x1.png\",\"publicId\":\"x1\",\"isPrimary\":true\x7d]")]
    files := some [{ path := "https://cdn/n1.png", filename := "n1" }]
    id := "1" }

/-- An update of record `1` with `deletedImages = ["x1"]` and no file. -/
def removeX1 : Req :=
  { body := [("deletedImages", JsVal.str "[\"x1\"]")], files := none, id := "1" }

/-- An update of record `1` whose `colors` field is `value` and nothing else. -/
def recolor (value : JsVal) : Req :=
  { body := [("colors", value)], files := none, id := "1" }

/-! ## catalogController.deleteCatalog -/

/-- Property read `v.k`.  `none` is the TypeError thrown when `v` is `null`
or `undefined`; a value without that own property reads as `undefined`. -/
def getProp (v : JsVal) (k : String) : Option JsVal :=
  match v with
  | .undefined => none
  | .null => none
  | .obj kvs => some (field kvs k)
  | .str s => if k = "length" then some (.num (utf16Length s) 0) else some .undefined
  | .arr xs => if k = "length" then some (.num xs.length 0) else some .undefined
  | _ => some .undefined

/-- The loop of deleteCatalog (lines 252-254): for each `img`, read
`img.publicId` and await `destroy(...).catch(() => {})`.  `error` is the
TypeError of the property read. -/
def destroyImages (env : Env) : World → List JsVal → World × Except String Unit
  | w, [] => (w, Except.ok ())
  | w, img :: rest =>
    match getProp img "publicId" with
    | none => (w, Except.error "Cannot read properties of null (reading 'publicId')")
    | some publicId => destroyImages env (destroyOne env w publicId) rest

/-- Modelled from the spec: `deleteById(id)` of the Record Store (§6) removes
the document that `findById(id)` finds. -/
def deleteRecord (id : String) : List Record → List Record
  | [] => []
  | r :: rs => if r.id = id then rs else r :: deleteRecord id rs

/-- `Catalog.findByIdAndDelete(id)`: a rejected call leaves the store as it was. -/
def findByIdAndDelete (env : Env) (w : World) (id : String) : World × Except String Unit :=
  match env.deleteFails w id with
  | some msg => (logCall w (Call.findByIdAndDelete id), Except.error msg)
  | none =>
    ({ logCall w (Call.findByIdAndDelete id) with records := deleteRecord id w.records },
      Except.ok ())

/-- The `try` block of deleteCatalog (lines 242-261). -/
def deleteTry (env : Env) (w : World) (req : Req) : World × Except String Response :=
  match findById env w req.id with
  | (w0, Except.error msg) => (w0, Except.error msg)
  | (w0, Except.ok none) => (w0, Except.ok (respondFail 404 "Catalog tidak ditemukan"))
  | (w0, Except.ok (some catalog)) =>
    match iterate catalog.doc.productImages with
    | none => (w0, Except.error "catalog.productImages is not iterable")
    | some imgs =>
      match destroyImages env w0 imgs with
      | (w1, Except.error msg) => (w1, Except.error msg)
      | (w1, Except.ok _) =>
        match findByIdAndDelete env w1 req.id with
        | (w2, Except.error msg) => (w2, Except.error msg)
        | (w2, Except.ok _) => (w2, Except.ok (respondOk 200 "Catalog berhasil dihapus" none))

/-- The handler `catalogController.deleteCatalog`; its `catch` (lines 263-268)
answers 500 with the message of the error. -/
def deleteCatalog (env : Env) (w : World) (req : Req) : World × Response :=
  match deleteTry env w req with
  | (w1, Except.ok r) => (w1, r)
  | (w1, Except.error msg) => (w1, respondFail 500 msg)

/-! ## app.js: sanitizeInput -/

/-- The test of line 90: `key.startsWith('$') || key.includes('.')`. -/
def deletesKey (key : String) : Bool :=
  key.toList.head? == some '$' || key.toList.contains '.'

mutual
/-- The function `sanitize` (app.js:86-97).  The source deletes keys in place;
here the sanitised value is returned.  The keys of an array are its indices,
which line 90 never deletes, so every element is visited. -/
def sanitize : JsVal → JsVal
  | .obj kvs => .obj (sanitizeKeys kvs)
  | .arr xs => .arr (sanitizeItems xs)
  | .undefined => .undefined
  | .null => .null
  | .bool b => .bool b
  | .num m e => .num m e
  | .str s => .str s
/-- The `forEach` of `sanitize` over the keys of an object. -/
def sanitizeKeys : List (String × JsVal) → List (String × JsVal)
  | [] => []
  | (key, v) :: rest =>
    if deletesKey key then sanitizeKeys rest else (key, sanitize v) :: sanitizeKeys rest
/-- The `forEach` of `sanitize` over the indices of an array. -/
def sanitizeItems : List JsVal → List JsVal
  | [] => []
  | x :: rest => sanitize x :: sanitizeItems rest
end

/-- The parts of a request that sanitizeInput touches. -/
structure RawReq where
  body : JsVal
  query : JsVal
  params : JsVal
  deriving DecidableEq

/-- The middleware `sanitizeInput` (app.js:85-105). -/
def sanitizeInput (req : RawReq) : RawReq :=
  { body := if truthy req.body then sanitize req.body else req.body
    query := if truthy req.query then sanitize req.query else req.query
    params := if truthy req.params then sanitize req.params else req.params }

/-- Whether a character occurs in a key. -/
def keyContains (c : Char) (key : String) : Bool := key.toList.contains c

mutual
/-- Whether some object key, at any depth, contains `$` or `.`. -/
def hasMarkedKey : JsVal → Bool
  | .obj kvs => membersMarked kvs
  | .arr xs => itemsMarked xs
  | _ => false
def membersMarked : List (String × JsVal) → Bool
  | [] => false
  | (key, v) :: rest =>
    keyContains '$' key || keyContains '.' key || hasMarkedKey v || membersMarked rest
def itemsMarked : List JsVal → Bool
  | [] => false
  | x :: rest => hasMarkedKey x || itemsMarked rest
end

mutual
/-- Whether some object key, at any depth, is one that line 90 deletes. -/
def hasDeletableKey : JsVal → Bool
  | .obj kvs => membersDeletable kvs
  | .arr xs => itemsDeletable xs
  | _ => false
def membersDeletable : List (String × JsVal) → Bool
  | [] => false
  | (key, v) :: rest => deletesKey key || hasDeletableKey v || membersDeletable rest
def itemsDeletable : List JsVal → Bool
  | [] => false
  | x :: rest => hasDeletableKey x || itemsDeletable rest
end

/-- Stores in which every call succeeds, except that the Object Store rejects
every delete. -/
def envNoDestroy : Env :=
  { envOk with destroyFails := fun _ _ => true }

/-- The request `DELETE /catalogs/1`. -/
def deleteOne : Req := { body := [], files := none, id := "1" }

/-- A request whose query string is `?a$b=1`. -/
def dollarQuery : RawReq :=
  { body := JsVal.undefined
    query := JsVal.obj [("a$b", JsVal.str "1")]
    params := JsVal.obj [] }

/-- Stores in which every call succeeds, except that the Record Store rejects
the delete of a record. -/
def envNoDelete : Env :=
  { envOk with deleteFails := fun _ _ => some "delete failed" }

/-! # Theorems -/

/-! ## Lemmas on the controller's image list -/

theorem length_pushImages (k : Nat) (fs : List UploadedFile) :
    (pushImages k fs).length = fs.length := by
  induction fs generalizing k with
  | nil => rfl
  | cons f rest ih => simp [pushImages, ih]

theorem getElem?_pushImages (k i : Nat) (fs : List UploadedFile) :
    (pushImages k fs)[i]? =
      (fs[i]?).map (fun f => ImageRef.mk f.path f.filename (k + i == 0)) := by
  induction fs generalizing k i with
  | nil => simp [pushImages]
  | cons f rest ih =>
    cases i with
    | zero => simp [pushImages]
    | succ j =>
      simp only [pushImages, List.getElem?_cons_succ, ih]
      have : k + 1 + j = k + (j + 1) := by omega
      rw [this]

theorem countP_pushImages_succ (k : Nat) (fs : List UploadedFile) :
    (pushImages (k + 1) fs).countP (fun r => r.isPrimary) = 0 := by
  induction fs generalizing k with
  | nil => rfl
  | cons f rest ih => simp [pushImages, ih]

theorem countP_pushImages_zero (f : UploadedFile) (fs : List UploadedFile) :
    (pushImages 0 (f :: fs)).countP (fun r => r.isPrimary) = 1 := by
  simp [pushImages, countP_pushImages_succ]

/-! ## The exits of createCatalog -/

theorem createCatalog_of_respond (env : Env) (w : World) (req : Req) (r : Response)
    (h : createChecks req = Checked.respond r) : createCatalog env w req = (w, r) := by
  simp [createCatalog, createTry, h]

theorem createCatalog_of_throw (env : Env) (w : World) (req : Req) (msg : String)
    (h : createChecks req = Checked.throw msg) :
    createCatalog env w req = createCatch env w req msg := by
  simp [createCatalog, createTry, h]

theorem createCatalog_of_pass_saved (env : Env) (w : World) (req : Req) (pc ps : JsVal)
    (h : createChecks req = Checked.pass pc ps)
    (hs : env.saveFails w (newCatalog req.body (createImages req.files) pc ps) = none) :
    createCatalog env w req =
      (stored env w (newCatalog req.body (createImages req.files) pc ps),
        respondOk 201 "Catalog berhasil ditambahkan"
          (some (newCatalog req.body (createImages req.files) pc ps))) := by
  simp [createCatalog, createTry, h, save, hs]

theorem createCatalog_of_pass_failed (env : Env) (w : World) (req : Req) (pc ps : JsVal)
    (msg : String) (h : createChecks req = Checked.pass pc ps)
    (hs : env.saveFails w (newCatalog req.body (createImages req.files) pc ps) = some msg) :
    createCatalog env w req =
      createCatch env
        (logCall w (Call.save (newCatalog req.body (createImages req.files) pc ps))) req msg := by
  simp [createCatalog, createTry, h, save, hs]

/-- A response of the checks is a 400. -/
theorem createChecks_respond_status (req : Req) (r : Response)
    (h : createChecks req = Checked.respond r) : r.status = 400 := by
  unfold createChecks at h
  repeat' split at h
  all_goals first
    | (cases h; rfl)
    | cases h

/-- The checks pass only with at least one file. -/
theorem createChecks_pass_files (req : Req) (pc ps : JsVal)
    (h : createChecks req = Checked.pass pc ps) : (createImages req.files).length ≠ 0 := by
  unfold createChecks at h
  repeat' split at h
  all_goals first
    | (cases h; assumption)
    | cases h

theorem createCatch_status (env : Env) (w : World) (req : Req) (msg : String) :
    (createCatch env w req msg).2.status = 500 := rfl

theorem createImages_ne_nil (files : Option (List UploadedFile))
    (h : (createImages files).length ≠ 0) :
    ∃ f rest, files = some (f :: rest) ∧ createImages files = pushImages 0 (f :: rest) := by
  cases files with
  | none => simp [createImages] at h
  | some fs =>
    cases fs with
    | nil => simp [createImages] at h
    | cons f rest => exact ⟨f, rest, rfl, by simp [createImages]⟩

/-- A 201 answer comes from the one exit after a successful save. -/
theorem createCatalog_created (env : Env) (w : World) (req : Req)
    (h : (createCatalog env w req).2.status = 201) :
    ∃ pc ps, createChecks req = Checked.pass pc ps ∧
      env.saveFails w (newCatalog req.body (createImages req.files) pc ps) = none ∧
      createCatalog env w req =
        (stored env w (newCatalog req.body (createImages req.files) pc ps),
          respondOk 201 "Catalog berhasil ditambahkan"
            (some (newCatalog req.body (createImages req.files) pc ps))) := by
  cases hc : createChecks req with
  | respond r =>
    rw [createCatalog_of_respond env w req r hc] at h
    have := createChecks_respond_status req r hc
    simp_all
  | throw msg =>
    rw [createCatalog_of_throw env w req msg hc, createCatch_status] at h
    cases h
  | pass pc ps =>
    cases hs : env.saveFails w (newCatalog req.body (createImages req.files) pc ps) with
    | some msg =>
      rw [createCatalog_of_pass_failed env w req pc ps msg hc hs, createCatch_status] at h
      cases h
    | none => exact ⟨pc, ps, rfl, hs, createCatalog_of_pass_saved env w req pc ps hc hs⟩

/-! ## Claims -/

/-- The properties of an entry of `productImages` as the controller writes it. -/
theorem getProp_toJs (r : ImageRef) :
    getProp r.toJs "url" = some (JsVal.str r.url) ∧
    getProp r.toJs "publicId" = some (JsVal.str r.publicId) ∧
    getProp r.toJs "isPrimary" = some (JsVal.bool r.isPrimary) := by
  simp [getProp, ImageRef.toJs, field, getKey]

/-- C1: whenever createCatalog answers 201, the request carried at least one
file and the record appended to the Record Store (also the `data` of the
answer) has an image list with one entry per uploaded file in upload order,
entry `i` holding the url and storage id of file `i` and `isPrimary` true
exactly for `i = 0`; so exactly one entry is primary, the one built from the
first file.  The same is stated of the stored entries themselves: the
properties `url`, `publicId` and `isPrimary` read from entry `i` of the stored
list are those of file `i`, and exactly one stored entry reads
`isPrimary = true`. -/
theorem createCatalog_success_images (env : Env) (w : World) (req : Req)
    (h : (createCatalog env w req).2.status = 201) :
    ∃ (first : UploadedFile) (rest : List UploadedFile) (doc : CatalogDoc)
      (imgs : List ImageRef),
      req.files = some (first :: rest) ∧
      (createCatalog env w req).1.records =
        w.records ++ [{ id := env.newId w doc, doc := doc }] ∧
      (createCatalog env w req).2.data = some doc ∧
      doc.productImages = JsVal.arr (imgs.map ImageRef.toJs) ∧
      imgs.length = (first :: rest).length ∧ 1 ≤ imgs.length ∧
      (∀ i, imgs[i]? =
        ((first :: rest)[i]?).map (fun f => ImageRef.mk f.path f.filename (i == 0))) ∧
      imgs.countP (fun r => r.isPrimary) = 1 ∧
      imgs[0]? = some (ImageRef.mk first.path first.filename true) ∧
      ∃ entries, doc.productImages = JsVal.arr entries ∧
        entries.length = (first :: rest).length ∧
        (∀ i e file, entries[i]? = some e → (first :: rest)[i]? = some file →
          getProp e "url" = some (JsVal.str file.path) ∧
          getProp e "publicId" = some (JsVal.str file.filename) ∧
          getProp e "isPrimary" = some (JsVal.bool (i == 0))) ∧
        entries.countP (fun e => getProp e "isPrimary" == some (JsVal.bool true)) = 1 ∧
        (∀ e, entries[0]? = some e →
          getProp e "url" = some (JsVal.str first.path) ∧
          getProp e "publicId" = some (JsVal.str first.filename) ∧
          getProp e "isPrimary" = some (JsVal.bool true)) := by
  obtain ⟨pc, ps, hc, _, hrun⟩ := createCatalog_created env w req h
  obtain ⟨f, rest, hf, himgs⟩ := createImages_ne_nil req.files (createChecks_pass_files req pc ps hc)
  have hentry : ∀ i e file, ((pushImages 0 (f :: rest)).map ImageRef.toJs)[i]? = some e →
      (f :: rest)[i]? = some file →
      getProp e "url" = some (JsVal.str file.path) ∧
      getProp e "publicId" = some (JsVal.str file.filename) ∧
      getProp e "isPrimary" = some (JsVal.bool (i == 0)) := by
    intro i e file he hfile
    rw [List.getElem?_map, getElem?_pushImages, hfile] at he
    simp only [Option.map_some', Option.some.injEq, Nat.zero_add] at he
    subst he
    exact getProp_toJs _
  refine ⟨f, rest, newCatalog req.body (createImages req.files) pc ps, pushImages 0 (f :: rest),
    hf, ?_, ?_, ?_, ?_, ?_, ?_, ?_, ?_, (pushImages 0 (f :: rest)).map ImageRef.toJs,
    ?_, ?_, hentry, ?_, ?_⟩
  · rw [hrun]; rfl
  · rw [hrun]; rfl
  · rw [himgs]; rfl
  · exact length_pushImages 0 (f :: rest)
  · rw [length_pushImages]; simp
  · intro i
    rw [getElem?_pushImages]
    simp
  · exact countP_pushImages_zero f rest
  · simp [pushImages]
  · rw [himgs]; rfl
  · simp [length_pushImages]
  · rw [List.countP_map]
    have hp : ((fun e => getProp e "isPrimary" == some (JsVal.bool true)) ∘ ImageRef.toJs) =
        (fun r : ImageRef => r.isPrimary) := by
      funext r
      simp only [Function.comp, (getProp_toJs r).2.2]
      cases r.isPrimary <;> decide
    rw [hp]
    exact countP_pushImages_zero f rest
  · intro e he
    exact hentry 0 e f he (by simp)

/-- C1 (witness): the two-file "Shirt A" request is answered 201 by stores that
accept every call; the stored record lists the two files, the first one as
primary. -/
theorem createCatalog_success_images_witness :
    (createCatalog envOk emptyWorld shirtReq).2.status = 201 ∧
    ((createCatalog envOk emptyWorld shirtReq).1.records.map
      (fun r => r.doc.productImages)) =
      [JsVal.arr
        [JsVal.obj [("url", JsVal.str "https://cdn/a.png"), ("publicId", JsVal.str "katalog-a"),
          ("isPrimary", JsVal.bool true)],
        JsVal.obj [("url", JsVal.str "https://cdn/b.png"), ("publicId", JsVal.str "katalog-b"),
          ("isPrimary", JsVal.bool false)]]] ∧
    ∃ (first : UploadedFile) (rest : List UploadedFile) (doc : CatalogDoc)
      (imgs : List ImageRef),
      shirtReq.files = some (first :: rest) ∧
      (createCatalog envOk emptyWorld shirtReq).1.records =
        emptyWorld.records ++ [{ id := envOk.newId emptyWorld doc, doc := doc }] ∧
      (createCatalog envOk emptyWorld shirtReq).2.data = some doc ∧
      doc.productImages = JsVal.arr (imgs.map ImageRef.toJs) ∧
      imgs.length = (first :: rest).length ∧ 1 ≤ imgs.length ∧
      (∀ i, imgs[i]? =
        ((first :: rest)[i]?).map (fun f => ImageRef.mk f.path f.filename (i == 0))) ∧
      imgs.countP (fun r => r.isPrimary) = 1 ∧
      imgs[0]? = some (ImageRef.mk first.path first.filename true) ∧
      ∃ entries, doc.productImages = JsVal.arr entries ∧
        entries.length = (first :: rest).length ∧
        (∀ i e file, entries[i]? = some e → (first :: rest)[i]? = some file →
          getProp e "url" = some (JsVal.str file.path) ∧
          getProp e "publicId" = some (JsVal.str file.filename) ∧
          getProp e "isPrimary" = some (JsVal.bool (i == 0))) ∧
        entries.countP (fun e => getProp e "isPrimary" == some (JsVal.bool true)) = 1 ∧
        (∀ e, entries[0]? = some e →
          getProp e "url" = some (JsVal.str first.path) ∧
          getProp e "publicId" = some (JsVal.str first.filename) ∧
          getProp e "isPrimary" = some (JsVal.bool true)) :=
  ⟨by decide, by decide, createCatalog_success_images envOk emptyWorld shirtReq (by decide)⟩

/-! ## Lemmas on the delete loop -/

theorem destroyOne_calls (env : Env) (w : World) (x : JsVal) :
    (destroyOne env w x).calls = w.calls ++ [Call.destroy x] := by
  unfold destroyOne
  split <;> rfl

theorem destroyOne_records (env : Env) (w : World) (x : JsVal) :
    (destroyOne env w x).records = w.records := by
  unfold destroyOne
  split <;> rfl

theorem destroyAll_calls (env : Env) (w : World) (xs : List JsVal) :
    (destroyAll env w xs).calls = w.calls ++ xs.map Call.destroy := by
  induction xs generalizing w with
  | nil => simp [destroyAll]
  | cons x rest ih => simp [destroyAll, ih, destroyOne_calls]

theorem destroyAll_records (env : Env) (w : World) (xs : List JsVal) :
    (destroyAll env w xs).records = w.records := by
  induction xs generalizing w with
  | nil => rfl
  | cons x rest ih => simp [destroyAll, ih, destroyOne_records]

/-- C3: when the checks of createCatalog pass and the save is rejected, the
calls issued are the save followed by one Object Store delete per uploaded
file, for that file's storage id and in upload order, whatever the outcome of
each delete; the answer is 500 and the Record Store is unchanged. -/
theorem createCatalog_save_failure_cleanup (env : Env) (w : World) (req : Req)
    (pc ps : JsVal) (msg : String) (hc : createChecks req = Checked.pass pc ps)
    (hs : env.saveFails w (newCatalog req.body (createImages req.files) pc ps) = some msg) :
    ∃ fs, req.files = some fs ∧ fs ≠ [] ∧
      (createCatalog env w req).1.calls =
        w.calls ++ [Call.save (newCatalog req.body (createImages req.files) pc ps)] ++
          fs.map (fun file => Call.destroy (JsVal.str file.filename)) ∧
      (createCatalog env w req).2.status = 500 ∧
      (createCatalog env w req).2.success = false ∧
      (createCatalog env w req).1.records = w.records := by
  obtain ⟨f, rest, hf, _⟩ := createImages_ne_nil req.files (createChecks_pass_files req pc ps hc)
  refine ⟨f :: rest, hf, by simp, ?_, ?_, ?_, ?_⟩
  · rw [createCatalog_of_pass_failed env w req pc ps msg hc hs]
    simp [createCatch, hf, destroyAll_calls, logCall, List.map_map, Function.comp_def]
  · rw [createCatalog_of_pass_failed env w req pc ps msg hc hs]; rfl
  · rw [createCatalog_of_pass_failed env w req pc ps msg hc hs]; rfl
  · rw [createCatalog_of_pass_failed env w req pc ps msg hc hs]
    simp [createCatch, hf, destroyAll_records, logCall]

/-- C3 (witness): the "Shirt A" request against stores that reject the save and every delete. -/
theorem createCatalog_save_failure_cleanup_witness :
    createChecks shirtReq =
      Checked.pass (JsVal.arr [JsVal.str "red", JsVal.str "blue"])
        (JsVal.arr [JsVal.str "M", JsVal.str "L"]) ∧
    envAllFail.saveFails emptyWorld
      (newCatalog shirtReq.body (createImages shirtReq.files)
        (JsVal.arr [JsVal.str "red", JsVal.str "blue"])
        (JsVal.arr [JsVal.str "M", JsVal.str "L"])) = some "write failed" ∧
    ∃ fs, shirtReq.files = some fs ∧ fs ≠ [] ∧
      (createCatalog envAllFail emptyWorld shirtReq).1.calls =
        emptyWorld.calls ++
          [Call.save (newCatalog shirtReq.body (createImages shirtReq.files)
            (JsVal.arr [JsVal.str "red", JsVal.str "blue"])
            (JsVal.arr [JsVal.str "M", JsVal.str "L"]))] ++
          fs.map (fun file => Call.destroy (JsVal.str file.filename)) ∧
      (createCatalog envAllFail emptyWorld shirtReq).2.status = 500 ∧
      (createCatalog envAllFail emptyWorld shirtReq).2.success = false ∧
      (createCatalog envAllFail emptyWorld shirtReq).1.records = emptyWorld.records :=
  ⟨by decide, by decide,
    createCatalog_save_failure_cleanup envAllFail emptyWorld shirtReq
      (JsVal.arr [JsVal.str "red", JsVal.str "blue"])
      (JsVal.arr [JsVal.str "M", JsVal.str "L"]) "write failed" (by decide) (by decide)⟩

/-! ## The upload middleware -/

/-- A run of the middleware that hands files to the controller has stored one
object per file and touched nothing else. -/
theorem uploadArray_ok (env : Env) (parts : List String) :
    ∀ (w w1 : World) (acc files : List UploadedFile),
      uploadArray env w parts acc = (w1, Except.ok files) →
      ∃ added, files = acc ++ added ∧ added.length = parts.length ∧
        w1.records = w.records ∧
        w1.calls = w.calls ++ added.map (fun file => Call.upload file.filename) ∧
        w1.objects = w.objects ++ added.map (fun file => file.filename) := by
  induction parts with
  | nil =>
    intro w w1 acc files h
    simp only [uploadArray, Prod.mk.injEq, Except.ok.injEq] at h
    obtain ⟨rfl, rfl⟩ := h
    exact ⟨[], by simp⟩
  | cons p rest ih =>
    intro w w1 acc files h
    simp only [uploadArray, handleFile] at h
    cases hu : env.uploadStream w p with
    | error e => simp [hu] at h
    | ok r =>
      obtain ⟨secureUrl, publicId⟩ := r
      simp only [hu] at h
      obtain ⟨added, hfiles, hlen, hrec, hcalls, hobj⟩ := ih _ _ _ _ h
      refine ⟨{ path := secureUrl, filename := publicId } :: added, ?_, ?_, ?_, ?_, ?_⟩
      · simp [hfiles]
      · simp [hlen]
      · simp [hrec, logCall]
      · simp [hcalls, logCall]
      · simp [hobj]

/-- When the middleware reports an error, the route never reaches
createCatalog: the error handler answers 400. -/
theorem postCatalog_of_upload_error (env : Env) (w w1 : World) (body : List (String × JsVal))
    (parts : List String) (e : MwError)
    (hup : uploadArray env w parts [] = (w1, Except.error e)) :
    postCatalog env w body (some parts) = (w1, errorHandler e) ∧
      (errorHandler e).status = 400 := by
  refine ⟨by simp [postCatalog, hup], ?_⟩
  unfold errorHandler
  repeat' split
  all_goals rfl

/-- C4 (counterexample): a multipart request with one file and no productName
is answered 400 by the first check of createCatalog, yet the file has been
uploaded by the middleware and its object is in the Object Store when the
answer is sent. -/
theorem postCatalog_validation_orphan :
    createChecks { body := namelessBody, files := some [], id := "" } =
      Checked.respond (respondFail 400 "Nama produk dan harga wajib diisi") ∧
    (postCatalog envOk emptyWorld namelessBody (some ["a.png"])).2 =
      respondFail 400 "Nama produk dan harga wajib diisi" ∧
    (postCatalog envOk emptyWorld namelessBody (some ["a.png"])).1.calls =
      [Call.upload "katalog-a.png"] ∧
    emptyWorld.objects = [] ∧
    (postCatalog envOk emptyWorld namelessBody (some ["a.png"])).1.objects =
      ["katalog-a.png"] := by
  decide

/-- C4 (amended): when the upload middleware of `POST /` has stored the files
of the request and the checks of createCatalog then reject it, the answer is
that 400 response, the Record Store is unchanged, and the calls of the request
begin with one upload per file, issued before createCatalog ran; no call
after them is a save or an upload. -/
theorem postCatalog_validation_after_upload (env : Env) (w w1 : World)
    (body : List (String × JsVal)) (parts : List String) (files : List UploadedFile)
    (r : Response) (hup : uploadArray env w parts [] = (w1, Except.ok files))
    (hr : createChecks { body := body, files := some files, id := "" } = Checked.respond r) :
    (postCatalog env w body (some parts)).2 = r ∧ r.status = 400 ∧
    (postCatalog env w body (some parts)).1.records = w.records ∧
    files.length = parts.length ∧
    ∃ later, (postCatalog env w body (some parts)).1.calls =
        w.calls ++ files.map (fun file => Call.upload file.filename) ++ later ∧
      ∀ c ∈ later, (∀ doc, c ≠ Call.save doc) ∧ (∀ publicId, c ≠ Call.upload publicId) := by
  obtain ⟨added, hfiles, hlen, hrec, hcalls, _⟩ := uploadArray_ok env parts w w1 [] files hup
  have hrun : postCatalog env w body (some parts) = (w1, r) := by
    simp [postCatalog, hup, createCatalog_of_respond env w1 _ r hr]
  simp only [List.nil_append] at hfiles
  subst hfiles
  refine ⟨by rw [hrun], createChecks_respond_status _ r hr, by rw [hrun]; exact hrec, hlen,
    [], ?_, by simp⟩
  rw [hrun]
  simp [hcalls]

/-- C4 (witness): a one-file multipart request without productName. -/
theorem postCatalog_validation_after_upload_witness :
    uploadArray envOk emptyWorld ["a.png"] [] =
      ({ records := [], objects := ["katalog-a.png"], calls := [Call.upload "katalog-a.png"] },
        Except.ok [{ path := "https://cdn/a.png", filename := "katalog-a.png" }]) ∧
    createChecks
        (Req.mk namelessBody (some [UploadedFile.mk "https://cdn/a.png" "katalog-a.png"]) "") =
      Checked.respond (respondFail 400 "Nama produk dan harga wajib diisi") ∧
    ((postCatalog envOk emptyWorld namelessBody (some ["a.png"])).2 =
        respondFail 400 "Nama produk dan harga wajib diisi" ∧
      (respondFail 400 "Nama produk dan harga wajib diisi").status = 400 ∧
      (postCatalog envOk emptyWorld namelessBody (some ["a.png"])).1.records =
        emptyWorld.records ∧
      [UploadedFile.mk "https://cdn/a.png" "katalog-a.png"].length = ["a.png"].length ∧
      ∃ later, (postCatalog envOk emptyWorld namelessBody (some ["a.png"])).1.calls =
          emptyWorld.calls ++
            [UploadedFile.mk "https://cdn/a.png" "katalog-a.png"].map
              (fun file => Call.upload file.filename) ++ later ∧
        ∀ c ∈ later, (∀ doc, c ≠ Call.save doc) ∧ (∀ publicId, c ≠ Call.upload publicId)) :=
  ⟨by rfl, by decide,
    postCatalog_validation_after_upload envOk emptyWorld
      { records := [], objects := ["katalog-a.png"], calls := [Call.upload "katalog-a.png"] }
      namelessBody ["a.png"] [UploadedFile.mk "https://cdn/a.png" "katalog-a.png"]
      (respondFail 400 "Nama produk dan harga wajib diisi") (by rfl) (by decide)⟩

/-! ## The checks of createCatalog -/

/-- When the checks of createCatalog pass. -/
theorem createChecks_pass_iff (req : Req) (pc ps : JsVal) :
    createChecks req = Checked.pass pc ps ↔
      truthy (field req.body "productName") = true ∧
      truthy (field req.body "productPrice") = true ∧
      parseCreate (field req.body "colors") = some pc ∧
      parseCreate (field req.body "sizes") = some ps ∧
      (∃ lc, getLength pc = some lc ∧ strictEqZero lc = false) ∧
      (∃ ls, getLength ps = some ls ∧ strictEqZero ls = false) ∧
      (createImages req.files).length ≠ 0 := by
  constructor
  · intro h
    unfold createChecks at h
    repeat' split at h
    all_goals first
      | (cases h; simp_all)
      | cases h
  · rintro ⟨h1, h2, h3, h4, ⟨lc, h5, h6⟩, ⟨ls, h7, h8⟩, h9⟩
    simp [createChecks, h1, h2, h3, h4, h5, h6, h7, h8, h9]

/-- When the checks of createCatalog throw: reading `.length` of a decoded
`null`. -/
theorem createChecks_throw (req : Req) (msg : String)
    (h : createChecks req = Checked.throw msg) :
    ∃ pc ps, parseCreate (field req.body "colors") = some pc ∧
      parseCreate (field req.body "sizes") = some ps ∧
      (getLength pc = none ∨ getLength ps = none) := by
  unfold createChecks at h
  repeat' split at h
  all_goals first
    | (cases h; simp_all)
    | cases h

/-- The decode of createCatalog, case by case. -/
theorem parseCreate_eq (v : JsVal) :
    parseCreate v =
      if truthy v = false then some (JsVal.arr [])
      else if isArray v = true then some v else jsonParse v := by
  unfold parseCreate
  cases truthy v <;> simp

/-- A value that is absent, undecodable or an empty list never decodes to
anything but the empty list. -/
theorem parseCreate_bad (v : JsVal)
    (h : truthy v = false ∨ (isArray v = false ∧ jsonParse v = none) ∨ v = JsVal.arr [] ∨
      (isArray v = false ∧ jsonParse v = some (JsVal.arr []))) :
    ∀ p, parseCreate v = some p → p = JsVal.arr [] := by
  intro p hp
  rw [parseCreate_eq] at hp
  rcases h with h | ⟨h1, h2⟩ | h | ⟨h1, h2⟩
  · simp [h] at hp; exact hp.symm
  · by_cases ht : truthy v = false
    · simp [ht] at hp; exact hp.symm
    · simp [ht, h1, h2] at hp
  · subst h; simp [truthy, isArray] at hp; exact hp.symm
  · by_cases ht : truthy v = false
    · simp [ht] at hp; exact hp.symm
    · simp [ht, h1, h2] at hp; exact hp.symm

theorem createCatch_records (env : Env) (w : World) (req : Req) (msg : String) :
    (createCatch env w req msg).1.records = w.records := by
  unfold createCatch
  cases req.files with
  | none => rfl
  | some fs =>
    by_cases h : (fs.length != 0) = true
    · simp [h, destroyAll_records]
    · simp [h]

/-- C5 (counterexample): the colors texts `5`, `"red"` and `{"a":1}` pass the
checks of createCatalog although none of them decodes to a list of strings;
with the first two the record is created (201). -/
theorem createCatalog_accepts_non_list :
    createChecks (shirtWithColors (JsVal.str "5")) =
      Checked.pass (JsVal.num 5 0) (JsVal.arr [JsVal.str "M", JsVal.str "L"]) ∧
    (createCatalog envOk emptyWorld (shirtWithColors (JsVal.str "5"))).2.status = 201 ∧
    ((createCatalog envOk emptyWorld (shirtWithColors (JsVal.str "5"))).1.records.map
      (fun r => r.doc.colors)) = [JsVal.num 5 0] ∧
    createChecks (shirtWithColors (JsVal.str "\"red\"")) =
      Checked.pass (JsVal.str "red") (JsVal.arr [JsVal.str "M", JsVal.str "L"]) ∧
    (createCatalog envOk emptyWorld (shirtWithColors (JsVal.str "\"red\""))).2.status = 201 ∧
    createChecks (shirtWithColors (JsVal.str "\x7b\"a\":1\x7d")) =
      Checked.pass (JsVal.obj [("a", JsVal.num 1 0)])
        (JsVal.arr [JsVal.str "M", JsVal.str "L"]) := by
  decide

/-- C5 (amended): createCatalog goes on to the save only if `colors` and
`sizes` are each present and decode (a list as it is, any other value through
JSON.parse) to a value whose `length` is not 0; neither the elements nor the
kind of the decoded value is checked.  A `colors` value that is absent, fails
to decode or decodes to an empty list is answered 400 with the stores
untouched; with such a `sizes` value nothing is persisted, and the answer is
400 whenever reading the length of the decoded `colors` does not throw. -/
theorem createCatalog_colors_sizes_gate (req : Req) :
    (∀ pc ps, createChecks req = Checked.pass pc ps →
      truthy (field req.body "colors") = true ∧
      ((isArray (field req.body "colors") = true ∧ pc = field req.body "colors") ∨
        (isArray (field req.body "colors") = false ∧
          jsonParse (field req.body "colors") = some pc)) ∧
      (∃ lc, getLength pc = some lc ∧ strictEqZero lc = false) ∧
      truthy (field req.body "sizes") = true ∧
      ((isArray (field req.body "sizes") = true ∧ ps = field req.body "sizes") ∨
        (isArray (field req.body "sizes") = false ∧
          jsonParse (field req.body "sizes") = some ps)) ∧
      (∃ ls, getLength ps = some ls ∧ strictEqZero ls = false)) ∧
    ((truthy (field req.body "colors") = false ∨
        (isArray (field req.body "colors") = false ∧
          jsonParse (field req.body "colors") = none) ∨
        field req.body "colors" = JsVal.arr [] ∨
        (isArray (field req.body "colors") = false ∧
          jsonParse (field req.body "colors") = some (JsVal.arr []))) →
      ∃ r, r.status = 400 ∧ ∀ env w, createCatalog env w req = (w, r)) ∧
    ((truthy (field req.body "sizes") = false ∨
        (isArray (field req.body "sizes") = false ∧
          jsonParse (field req.body "sizes") = none) ∨
        field req.body "sizes" = JsVal.arr [] ∨
        (isArray (field req.body "sizes") = false ∧
          jsonParse (field req.body "sizes") = some (JsVal.arr []))) →
      (∀ env w, (createCatalog env w req).1.records = w.records) ∧
      ((∀ pc, parseCreate (field req.body "colors") = some pc → getLength pc ≠ none) →
        ∃ r, r.status = 400 ∧ ∀ env w, createCatalog env w req = (w, r))) := by
  have hzero : getLength (JsVal.arr []) = some (JsVal.num 0 0) := rfl
  refine ⟨?_, ?_, ?_⟩
  · intro pc ps h
    obtain ⟨_, _, hc, hs, ⟨lc, hlc, hz⟩, ⟨ls, hls, hzs⟩, _⟩ := (createChecks_pass_iff req pc ps).1 h
    rw [parseCreate_eq] at hc hs
    have key : ∀ (v p l : JsVal),
        (if truthy v = false then some (JsVal.arr [])
          else if isArray v = true then some v else jsonParse v) = some p →
        getLength p = some l → strictEqZero l = false →
        truthy v = true ∧
          ((isArray v = true ∧ p = v) ∨ (isArray v = false ∧ jsonParse v = some p)) := by
      intro v p l hp hl hzl
      have hempty : JsVal.arr [] = p → False := by
        intro hp2
        subst hp2
        rw [hzero] at hl
        cases hl
        simp [strictEqZero] at hzl
      cases ht : truthy v with
      | false =>
        rw [ht] at hp
        simp only [if_true, Option.some.injEq] at hp
        exact (hempty hp).elim
      | true =>
        rw [ht] at hp
        cases ha : isArray v with
        | false =>
          rw [ha] at hp
          simp only [Bool.true_eq_false, Bool.false_eq_true, if_false] at hp
          exact ⟨rfl, Or.inr ⟨rfl, hp⟩⟩
        | true =>
          rw [ha] at hp
          simp only [Bool.true_eq_false, if_true, if_false, Option.some.injEq] at hp
          exact ⟨rfl, Or.inl ⟨rfl, hp.symm⟩⟩
    obtain ⟨a1, a2⟩ := key _ pc lc hc hlc hz
    obtain ⟨b1, b2⟩ := key _ ps ls hs hls hzs
    exact ⟨a1, a2, ⟨lc, hlc, hz⟩, b1, b2, ⟨ls, hls, hzs⟩⟩
  · intro hbad
    have hb := parseCreate_bad _ hbad
    cases hck : createChecks req with
    | respond r =>
      exact ⟨r, createChecks_respond_status req r hck,
        fun env w => createCatalog_of_respond env w req r hck⟩
    | throw msg =>
      exfalso
      obtain ⟨pc, ps, hc, hs, hl⟩ := createChecks_throw req msg hck
      have hpc := hb pc hc
      subst hpc
      unfold createChecks at hck
      simp [hc, hs, hzero, strictEqZero] at hck
      split at hck <;> cases hck
    | pass pc ps =>
      exfalso
      obtain ⟨_, _, hc, _, ⟨lc, hlc, hz⟩, _, _⟩ := (createChecks_pass_iff req pc ps).1 hck
      have hpc := hb pc hc
      subst hpc
      rw [hzero] at hlc
      cases hlc
      simp [strictEqZero] at hz
  · intro hbad
    have hb := parseCreate_bad _ hbad
    have hnopass : ∀ pc ps, createChecks req ≠ Checked.pass pc ps := by
      intro pc ps hck
      obtain ⟨_, _, _, hs, _, ⟨ls, hls, hz⟩, _⟩ := (createChecks_pass_iff req pc ps).1 hck
      have hps := hb ps hs
      subst hps
      rw [hzero] at hls
      cases hls
      simp [strictEqZero] at hz
    refine ⟨?_, ?_⟩
    · intro env w
      cases hck : createChecks req with
      | respond r => rw [createCatalog_of_respond env w req r hck]
      | throw msg => rw [createCatalog_of_throw env w req msg hck, createCatch_records]
      | pass pc ps => exact absurd hck (hnopass pc ps)
    · intro hlen
      cases hck : createChecks req with
      | respond r =>
        exact ⟨r, createChecks_respond_status req r hck,
          fun env w => createCatalog_of_respond env w req r hck⟩
      | throw msg =>
        exfalso
        obtain ⟨pc, ps, hc, hs, hl⟩ := createChecks_throw req msg hck
        have hps := hb ps hs
        subst hps
        rcases hl with hl | hl
        · exact hlen pc hc hl
        · rw [hzero] at hl; cases hl
      | pass pc ps => exact absurd hck (hnopass pc ps)

/-- C5 (witness): the "Shirt A" request passes with its decoded lists; with the colors text `[]` it is answered 400. -/
theorem createCatalog_colors_sizes_gate_witness :
    createChecks shirtReq =
      Checked.pass (JsVal.arr [JsVal.str "red", JsVal.str "blue"])
        (JsVal.arr [JsVal.str "M", JsVal.str "L"]) ∧
    jsonParse (field shirtReq.body "colors") =
      some (JsVal.arr [JsVal.str "red", JsVal.str "blue"]) ∧
    isArray (field (shirtWithColors (JsVal.str "[]")).body "colors") = false ∧
    jsonParse (field (shirtWithColors (JsVal.str "[]")).body "colors") = some (JsVal.arr []) ∧
    ∃ r, r.status = 400 ∧
      ∀ env w, createCatalog env w (shirtWithColors (JsVal.str "[]")) = (w, r) :=
  ⟨by decide,
    by
      rcases ((createCatalog_colors_sizes_gate shirtReq).1
        (JsVal.arr [JsVal.str "red", JsVal.str "blue"])
        (JsVal.arr [JsVal.str "M", JsVal.str "L"]) (by decide)).2.1 with h | h
      · exact absurd h.1 (by decide)
      · exact h.2,
    by decide, by decide,
    (createCatalog_colors_sizes_gate (shirtWithColors (JsVal.str "[]"))).2.1
      (Or.inr (Or.inr (Or.inr ⟨by decide, by decide⟩)))⟩

/-- The falsy values. -/
theorem truthy_eq_false_iff (v : JsVal) :
    truthy v = false ↔
      v = JsVal.undefined ∨ v = JsVal.null ∨ v = JsVal.bool false ∨
        (∃ e, v = JsVal.num 0 e) ∨ v = JsVal.str "" := by
  cases v <;> simp [truthy]

/-- The `catch` block of createCatalog only adds calls. -/
theorem createCatch_calls (env : Env) (w : World) (req : Req) (msg : String) :
    ∃ later, (createCatch env w req msg).1.calls = w.calls ++ later := by
  unfold createCatch
  cases req.files with
  | none => exact ⟨[], by simp⟩
  | some fs =>
    by_cases h : (fs.length != 0) = true
    · exact ⟨_, by simp only [h, if_true]; exact destroyAll_calls env w _⟩
    · exact ⟨[], by simp [h]⟩

/-- C6 (counterexample): the price text `-5` passes the productPrice check of
createCatalog and is handed to the save; the rejection by the schema's `min`
validator is answered 500, not 4xx. -/
theorem createCatalog_price_check_counterexample :
    createChecks (shirtWithPrice (JsVal.str "-5")) =
      Checked.pass (JsVal.arr [JsVal.str "red", JsVal.str "blue"])
        (JsVal.arr [JsVal.str "M", JsVal.str "L"]) ∧
    (createCatalog envSchema emptyWorld (shirtWithPrice (JsVal.str "-5"))).2 =
      respondFail 500 "Harga tidak boleh negatif." ∧
    (createCatalog envSchema emptyWorld (shirtWithPrice (JsVal.str "-5"))).1.calls =
      [Call.save (newCatalog (shirtWithPrice (JsVal.str "-5")).body (pushImages 0 twoFiles)
          (JsVal.arr [JsVal.str "red", JsVal.str "blue"])
          (JsVal.arr [JsVal.str "M", JsVal.str "L"])),
        Call.destroy (JsVal.str "katalog-a"), Call.destroy (JsVal.str "katalog-b")] ∧
    (newCatalog (shirtWithPrice (JsVal.str "-5")).body (pushImages 0 twoFiles)
        (JsVal.arr [JsVal.str "red", JsVal.str "blue"])
        (JsVal.arr [JsVal.str "M", JsVal.str "L"])).productPrice = JsVal.str "-5" := by
  decide

/-- C6 (amended): for a request whose other fields are valid and which carries
at least one file, so that productPrice is absent or a text, the productPrice
check of createCatalog answers 400, with no call to the stores, exactly when
productPrice is missing: absent or the empty text.  Every price text that is
present, `0` and a negative one included, passes the check and is handed to
the Record Store in the save: an accepted save is answered 201, a rejected one
500 with nothing persisted. -/
theorem createCatalog_price_check (req : Req) (pc ps lc ls : JsVal)
    (hname : truthy (field req.body "productName") = true)
    (hc : parseCreate (field req.body "colors") = some pc)
    (hs : parseCreate (field req.body "sizes") = some ps)
    (hlc : getLength pc = some lc) (hzc : strictEqZero lc = false)
    (hls : getLength ps = some ls) (hzs : strictEqZero ls = false)
    (hfiles : (createImages req.files).length ≠ 0) :
    ((field req.body "productPrice" = JsVal.undefined ∨
        field req.body "productPrice" = JsVal.str "") →
      ∀ env w, createCatalog env w req =
        (w, respondFail 400 "Nama produk dan harga wajib diisi")) ∧
    (∀ s, s ≠ "" → field req.body "productPrice" = JsVal.str s →
      createChecks req = Checked.pass pc ps ∧
      (newCatalog req.body (createImages req.files) pc ps).productPrice = JsVal.str s ∧
      ∀ env w,
        (env.saveFails w (newCatalog req.body (createImages req.files) pc ps) = none →
          createCatalog env w req =
            (stored env w (newCatalog req.body (createImages req.files) pc ps),
              respondOk 201 "Catalog berhasil ditambahkan"
                (some (newCatalog req.body (createImages req.files) pc ps)))) ∧
        (∀ msg, env.saveFails w (newCatalog req.body (createImages req.files) pc ps) =
            some msg →
          (createCatalog env w req).2.status = 500 ∧
          (createCatalog env w req).1.records = w.records ∧
          ∃ later, (createCatalog env w req).1.calls =
            w.calls ++
              [Call.save (newCatalog req.body (createImages req.files) pc ps)] ++ later)) := by
  refine ⟨?_, ?_⟩
  · intro hp env w
    apply createCatalog_of_respond
    have hfalse : truthy (field req.body "productPrice") = false := by
      rcases hp with hp | hp <;> rw [hp] <;> rfl
    simp [createChecks, hfalse]
  · intro s hne hp
    have htrue : truthy (field req.body "productPrice") = true := by
      rw [hp]
      simpa [truthy] using hne
    have hpass : createChecks req = Checked.pass pc ps :=
      (createChecks_pass_iff req pc ps).2
        ⟨hname, htrue, hc, hs, ⟨lc, hlc, hzc⟩, ⟨ls, hls, hzs⟩, hfiles⟩
    refine ⟨hpass, ?_, fun env w => ⟨?_, ?_⟩⟩
    · show field req.body "productPrice" = JsVal.str s
      exact hp
    · intro hsave
      exact createCatalog_of_pass_saved env w req pc ps hpass hsave
    · intro msg hsave
      rw [createCatalog_of_pass_failed env w req pc ps msg hpass hsave]
      refine ⟨rfl, ?_, ?_⟩
      · rw [createCatch_records]
        rfl
      · obtain ⟨later, hlater⟩ := createCatch_calls env
          (logCall w (Call.save (newCatalog req.body (createImages req.files) pc ps))) req msg
        exact ⟨later, by rw [hlater]; rfl⟩

/-- C6 (witness): against a Record Store that runs the `min` validator, the
price text `-5` is answered 500 with nothing persisted and the price text `0`
is answered 201. -/
theorem createCatalog_price_check_witness :
    (createCatalog envSchema emptyWorld (shirtWithPrice (JsVal.str "-5"))).2.status = 500 ∧
    (createCatalog envSchema emptyWorld (shirtWithPrice (JsVal.str "-5"))).1.records =
      emptyWorld.records ∧
    (createCatalog envSchema emptyWorld (shirtWithPrice (JsVal.str "0"))).2.status = 201 ∧
    (createCatalog envSchema emptyWorld (shirtWithPrice (JsVal.str ""))).2.status = 400 :=
  have hneg := ((createCatalog_price_check (shirtWithPrice (JsVal.str "-5"))
    (JsVal.arr [JsVal.str "red", JsVal.str "blue"]) (JsVal.arr [JsVal.str "M", JsVal.str "L"])
    (JsVal.num 2 0) (JsVal.num 2 0) (by decide) (by decide) (by decide) (by decide) (by decide)
    (by decide) (by decide) (by decide)).2 "-5" (by decide) (by decide)).2.2
      envSchema emptyWorld
  have hzero := ((createCatalog_price_check (shirtWithPrice (JsVal.str "0"))
    (JsVal.arr [JsVal.str "red", JsVal.str "blue"]) (JsVal.arr [JsVal.str "M", JsVal.str "L"])
    (JsVal.num 2 0) (JsVal.num 2 0) (by decide) (by decide) (by decide) (by decide) (by decide)
    (by decide) (by decide) (by decide)).2 "0" (by decide) (by decide)).2.2
      envSchema emptyWorld
  have hempty := (createCatalog_price_check (shirtWithPrice (JsVal.str ""))
    (JsVal.arr [JsVal.str "red", JsVal.str "blue"]) (JsVal.arr [JsVal.str "M", JsVal.str "L"])
    (JsVal.num 2 0) (JsVal.num 2 0) (by decide) (by decide) (by decide) (by decide) (by decide)
    (by decide) (by decide) (by decide)).1 (Or.inr (by decide)) envSchema emptyWorld
  ⟨(hneg.2 "Harga tidak boleh negatif." (by decide)).1,
    (hneg.2 "Harga tidak boleh negatif." (by decide)).2.1,
    by rw [hzero.1 (by decide)]; rfl,
    by rw [hempty]; rfl⟩

/-! ## updateCatalog -/

theorem getKey_setKey_self (k : String) (v : JsVal) (o : List (String × JsVal)) :
    getKey k (setKey k v o) = some v := by
  induction o with
  | nil => simp [setKey, getKey]
  | cons p rest ih =>
    obtain ⟨k1, v1⟩ := p
    by_cases h : k1 = k
    · simp [setKey, getKey, h]
    · simp [setKey, getKey, h, ih]

theorem getKey_setKey_ne (k j : String) (v : JsVal) (o : List (String × JsVal)) (hne : j ≠ k) :
    getKey k (setKey j v o) = getKey k o := by
  induction o with
  | nil => simp [setKey, getKey, hne]
  | cons p rest ih =>
    obtain ⟨k1, v1⟩ := p
    by_cases h : k1 = j
    · subst h
      simp [setKey, getKey, hne]
    · by_cases h2 : k1 = k
      · subst h2
        simp [setKey, getKey, h]
      · simp [setKey, getKey, h, h2, ih]

theorem findRecord_updateRecords (id : String) (u : List (String × JsVal)) (rs : List Record)
    (old : Record) (h : findRecord id rs = some old) :
    findRecord id (updateRecords id u rs) = some { old with doc := mergeDoc old.doc u } := by
  induction rs with
  | nil => simp [findRecord] at h
  | cons r rest ih =>
    by_cases hr : r.id = id
    · simp only [findRecord, hr, if_true, Option.some.injEq] at h
      subst h
      simp [updateRecords, findRecord, hr]
    · simp only [findRecord, hr, if_false] at h
      simp [updateRecords, findRecord, hr, ih h]

/-- The run of updateCatalog on a record that is found, once the request has
been decoded. -/
theorem updateCatalog_of_plan (env : Env) (w : World) (req : Req) (old : Record)
    (u : List (String × JsVal)) (ids : List JsVal)
    (hfind : env.findFails w req.id = none) (hrec : findRecord req.id w.records = some old)
    (hplan : updatePlan req = Except.ok (u, ids)) :
    updateCatalog env w req =
      match findByIdAndUpdate env (destroyAll env (logCall w (Call.findById req.id)) ids)
        req.id u with
      | (w2, Except.error msg) => (w2, respondFail 400 msg)
      | (w2, Except.ok updated) => (w2, respondOk 200 "Catalog berhasil diupdate" updated) := by
  simp only [updateCatalog, updateTry, findById, hfind, hrec, hplan]
  generalize findByIdAndUpdate env (destroyAll env (logCall w (Call.findById req.id)) ids)
    req.id u = res
  obtain ⟨w2, r⟩ := res
  cases r <;> rfl

/-- A 200 answer of updateCatalog comes from the one exit after a successful
write. -/
theorem updateCatalog_updated (env : Env) (w : World) (req : Req)
    (h : (updateCatalog env w req).2.status = 200) :
    ∃ old u ids, env.findFails w req.id = none ∧ findRecord req.id w.records = some old ∧
      updatePlan req = Except.ok (u, ids) ∧
      env.updateFails (destroyAll env (logCall w (Call.findById req.id)) ids) req.id u = none ∧
      updateCatalog env w req =
        ({ logCall (destroyAll env (logCall w (Call.findById req.id)) ids)
              (Call.findByIdAndUpdate req.id u) with
            records := updateRecords req.id u w.records },
          respondOk 200 "Catalog berhasil diupdate" (some (mergeDoc old.doc u))) := by
  cases hfind : env.findFails w req.id with
  | some msg => simp [updateCatalog, updateTry, findById, hfind, respondFail] at h
  | none =>
    cases hrec : findRecord req.id w.records with
    | none => simp [updateCatalog, updateTry, findById, hfind, hrec, respondFail] at h
    | some old =>
      cases hplan : updatePlan req with
      | error msg =>
        simp [updateCatalog, updateTry, findById, hfind, hrec, hplan, respondFail] at h
      | ok p =>
        obtain ⟨u, ids⟩ := p
        have hrun := updateCatalog_of_plan env w req old u ids hfind hrec hplan
        cases hup : env.updateFails (destroyAll env (logCall w (Call.findById req.id)) ids)
            req.id u with
        | some msg =>
          rw [hrun] at h
          simp only [findByIdAndUpdate, hup] at h
          simp [respondFail] at h
        | none =>
          refine ⟨old, u, ids, rfl, rfl, rfl, hup, ?_⟩
          rw [hrun]
          simp only [findByIdAndUpdate, hup]
          simp [destroyAll_records, logCall, hrec]

/-- With at least one file, the decoded request writes `productImages`: the
iterated `existingImages` followed by the new images. -/
theorem updatePlan_images (req : Req) (f : UploadedFile) (rest : List UploadedFile)
    (u : List (String × JsVal)) (ids : List JsVal) (hfiles : req.files = some (f :: rest))
    (hplan : updatePlan req = Except.ok (u, ids)) :
    ∃ ex,
      ((truthy (field req.body "existingImages") = false ∧ ex = []) ∨
        (truthy (field req.body "existingImages") = true ∧
          ∃ v, jsonParse (field req.body "existingImages") = some v ∧ iterate v = some ex)) ∧
      getKey "productImages" u =
        some (JsVal.arr (ex ++ (pushImages 0 (f :: rest)).map ImageRef.toJs)) := by
  unfold updatePlan at hplan
  cases h1 : parseUpdate "colors" req.body req.body with
  | none => simp [h1] at hplan
  | some u1 =>
    cases h2 : parseUpdate "sizes" req.body u1 with
    | none => simp [h1, h2] at hplan
    | some u2 =>
      cases h3 : updateImages req u2 with
      | none => simp [h1, h2, h3] at hplan
      | some u3 =>
        cases h4 : deleteList req.body with
        | none => simp [h1, h2, h3, h4] at hplan
        | some ids2 =>
          simp only [h1, h2, h3, h4, Except.ok.injEq, Prod.mk.injEq] at hplan
          obtain ⟨hu, _⟩ := hplan
          subst hu
          simp only [updateImages, hfiles, List.length_cons, bne_iff_ne, ne_eq,
            Nat.add_one_ne_zero, not_false_eq_true, if_true] at h3
          cases ht : truthy (field req.body "existingImages") with
          | false =>
            simp only [ht, Bool.false_eq_true, if_false, iterate, Option.some.injEq] at h3
            subst h3
            exact ⟨[], Or.inl ⟨rfl, rfl⟩, by simp [getKey_setKey_self]⟩
          | true =>
            simp only [ht, if_true] at h3
            cases hj : jsonParse (field req.body "existingImages") with
            | none => simp [hj] at h3
            | some v =>
              simp only [hj] at h3
              cases hi : iterate v with
              | none => simp [hi] at h3
              | some ex =>
                simp only [hi, Option.some.injEq] at h3
                subst h3
                exact ⟨ex, Or.inr ⟨rfl, v, rfl, hi⟩, getKey_setKey_self _ _ _⟩

/-- C7 (counterexample): an update of record `1` that retains `x1` (primary)
and uploads one new file writes an image list whose new entry has
`isPrimary = true`. -/
theorem updateCatalog_new_upload_primary :
    (updateCatalog envOk shirtWorld keepX1AddOne).2.status = 200 ∧
    ((updateCatalog envOk shirtWorld keepX1AddOne).1.records.map
      (fun r => r.doc.productImages)) =
      [JsVal.arr [imageX1.toJs,
        (ImageRef.mk "https://cdn/n1.png" "n1" true).toJs]] := by
  decide

/-- C7 (amended): when updateCatalog answers 200 for a request with at least
one new file, the `productImages` handed to the Record Store, stored in the
record and returned, is the decoded `existingImages` (its entries as they are;
nothing when the field is absent) followed by one entry per new file in
upload order, entry `i` holding the url and storage id of file `i` and
`isPrimary` true exactly for `i = 0`: the first new upload is marked primary. -/
theorem updateCatalog_image_list (env : Env) (w : World) (req : Req) (f : UploadedFile)
    (rest : List UploadedFile) (hfiles : req.files = some (f :: rest))
    (h : (updateCatalog env w req).2.status = 200) :
    ∃ (ex : List JsVal) (imgs : List ImageRef) (u : List (String × JsVal)) (old : Record),
      ((truthy (field req.body "existingImages") = false ∧ ex = []) ∨
        (truthy (field req.body "existingImages") = true ∧
          ∃ v, jsonParse (field req.body "existingImages") = some v ∧ iterate v = some ex)) ∧
      (∀ i, imgs[i]? =
        ((f :: rest)[i]?).map (fun file => ImageRef.mk file.path file.filename (i == 0))) ∧
      imgs[0]? = some (ImageRef.mk f.path f.filename true) ∧
      Call.findByIdAndUpdate req.id u ∈ (updateCatalog env w req).1.calls ∧
      getKey "productImages" u = some (JsVal.arr (ex ++ imgs.map ImageRef.toJs)) ∧
      findRecord req.id w.records = some old ∧
      findRecord req.id (updateCatalog env w req).1.records =
        some { old with doc := mergeDoc old.doc u } ∧
      (mergeDoc old.doc u).productImages = JsVal.arr (ex ++ imgs.map ImageRef.toJs) ∧
      (updateCatalog env w req).2.data = some (mergeDoc old.doc u) := by
  obtain ⟨old, u, ids, _, hrec, hplan, _, hrun⟩ := updateCatalog_updated env w req h
  obtain ⟨ex, hex, hkey⟩ := updatePlan_images req f rest u ids hfiles hplan
  refine ⟨ex, pushImages 0 (f :: rest), u, old, hex, ?_, ?_, ?_, hkey, hrec, ?_, ?_, ?_⟩
  · intro i
    rw [getElem?_pushImages]
    simp
  · simp [pushImages]
  · rw [hrun]
    simp [logCall]
  · rw [hrun]
    exact findRecord_updateRecords req.id u w.records old hrec
  · simp [mergeDoc, hkey]
  · rw [hrun]
    rfl

/-- C7 (witness): an update of record `1` that retains `x1` and uploads one file. -/
theorem updateCatalog_image_list_witness :
    (updateCatalog envOk shirtWorld keepX1AddOne).2.status = 200 ∧
    ∃ (ex : List JsVal) (imgs : List ImageRef) (u : List (String × JsVal)) (old : Record),
      ((truthy (field keepX1AddOne.body "existingImages") = false ∧ ex = []) ∨
        (truthy (field keepX1AddOne.body "existingImages") = true ∧
          ∃ v, jsonParse (field keepX1AddOne.body "existingImages") = some v ∧
            iterate v = some ex)) ∧
      (∀ i, imgs[i]? =
        (([UploadedFile.mk "https://cdn/n1.png" "n1"])[i]?).map
          (fun file => ImageRef.mk file.path file.filename (i == 0))) ∧
      imgs[0]? = some (ImageRef.mk "https://cdn/n1.png" "n1" true) ∧
      Call.findByIdAndUpdate keepX1AddOne.id u ∈
        (updateCatalog envOk shirtWorld keepX1AddOne).1.calls ∧
      getKey "productImages" u = some (JsVal.arr (ex ++ imgs.map ImageRef.toJs)) ∧
      findRecord keepX1AddOne.id shirtWorld.records = some old ∧
      findRecord keepX1AddOne.id (updateCatalog envOk shirtWorld keepX1AddOne).1.records =
        some { old with doc := mergeDoc old.doc u } ∧
      (mergeDoc old.doc u).productImages = JsVal.arr (ex ++ imgs.map ImageRef.toJs) ∧
      (updateCatalog envOk shirtWorld keepX1AddOne).2.data = some (mergeDoc old.doc u) :=
  ⟨by decide,
    updateCatalog_image_list envOk shirtWorld keepX1AddOne
      (UploadedFile.mk "https://cdn/n1.png" "n1") [] (by rfl) (by decide)⟩

theorem updatePlan_deleteList (req : Req) (u : List (String × JsVal)) (ids : List JsVal)
    (hplan : updatePlan req = Except.ok (u, ids)) : deleteList req.body = some ids := by
  unfold updatePlan at hplan
  repeat' split at hplan
  all_goals first
    | (cases hplan; assumption)
    | cases hplan

/-- The calls of updateCatalog on a record that is found, once the request
has been decoded: the deletes come before the write. -/
theorem updateCatalog_calls (env : Env) (w : World) (req : Req) (old : Record)
    (u : List (String × JsVal)) (ids : List JsVal)
    (hfind : env.findFails w req.id = none) (hrec : findRecord req.id w.records = some old)
    (hplan : updatePlan req = Except.ok (u, ids)) :
    (updateCatalog env w req).1.calls =
      w.calls ++ [Call.findById req.id] ++ ids.map Call.destroy ++
        [Call.findByIdAndUpdate req.id u] := by
  rw [updateCatalog_of_plan env w req old u ids hfind hrec hplan]
  cases hup : env.updateFails (destroyAll env (logCall w (Call.findById req.id)) ids) req.id u <;>
    simp only [findByIdAndUpdate, hup] <;> simp [logCall, destroyAll_calls]

/-- C8 (counterexample): with `deletedImages = ["x1"]` and a Record Store that
rejects the write, updateCatalog has already issued the delete of `x1` when
the write fails: the object is gone, the record still lists it, and the
answer is 400. -/
theorem updateCatalog_delete_then_failed_write :
    (updateCatalog envNoWrite shirtWorld removeX1).1.calls =
      [Call.findById "1", Call.destroy (JsVal.str "x1"),
        Call.findByIdAndUpdate "1" removeX1.body] ∧
    (updateCatalog envNoWrite shirtWorld removeX1).2 = respondFail 400 "write failed" ∧
    (updateCatalog envNoWrite shirtWorld removeX1).1.objects = ["x2"] ∧
    (updateCatalog envNoWrite shirtWorld removeX1).1.records = shirtWorld.records := by
  decide

/-- The run of updateCatalog on a record that is found, when a field of the
request fails to decode: the lookup is the only call. -/
theorem updateCatalog_of_plan_error (env : Env) (w : World) (req : Req) (old : Record)
    (msg : String) (hfind : env.findFails w req.id = none)
    (hrec : findRecord req.id w.records = some old)
    (hplan : updatePlan req = Except.error msg) :
    updateCatalog env w req = (logCall w (Call.findById req.id), respondFail 400 msg) := by
  simp [updateCatalog, updateTry, findById, hfind, hrec, hplan]

/-- C8 (amended): on a record that is found, for every request.  When the
fields `colors`, `sizes`, `existingImages` and `deletedImages` decode,
updateCatalog issues one Object Store delete per entry of the decoded
`deletedImages`, in list order, before the Record Store write; when the write
is then rejected, all those deletes have been issued, the Record Store is
unchanged and the answer is 400.  When one of the fields fails to decode, the
lookup is the only call (no delete, no write) and the answer is 400. -/
theorem updateCatalog_deletes_before_write (env : Env) (w : World) (req : Req) (old : Record)
    (hfind : env.findFails w req.id = none) (hrec : findRecord req.id w.records = some old) :
    (∀ u ids, updatePlan req = Except.ok (u, ids) →
      deleteList req.body = some ids ∧
      (updateCatalog env w req).1.calls =
        w.calls ++ [Call.findById req.id] ++ ids.map Call.destroy ++
          [Call.findByIdAndUpdate req.id u] ∧
      (∀ msg,
        env.updateFails (destroyAll env (logCall w (Call.findById req.id)) ids) req.id u =
          some msg →
        (updateCatalog env w req).2 = respondFail 400 msg ∧
        (updateCatalog env w req).1.records = w.records)) ∧
    (∀ msg, updatePlan req = Except.error msg →
      updateCatalog env w req = (logCall w (Call.findById req.id), respondFail 400 msg) ∧
      (updateCatalog env w req).1.calls = w.calls ++ [Call.findById req.id] ∧
      (updateCatalog env w req).1.records = w.records ∧
      (updateCatalog env w req).1.objects = w.objects) ∧
    ((∃ u ids, updatePlan req = Except.ok (u, ids)) ∨ ∃ msg, updatePlan req = Except.error msg) := by
  refine ⟨?_, ?_, ?_⟩
  · intro u ids hplan
    refine ⟨updatePlan_deleteList req u ids hplan,
      updateCatalog_calls env w req old u ids hfind hrec hplan, ?_⟩
    intro msg hup
    rw [updateCatalog_of_plan env w req old u ids hfind hrec hplan]
    simp only [findByIdAndUpdate, hup]
    refine ⟨?_, ?_⟩ <;> simp [logCall, destroyAll_records]
  · intro msg hplan
    rw [updateCatalog_of_plan_error env w req old msg hfind hrec hplan]
    exact ⟨rfl, rfl, rfl, rfl⟩
  · cases hplan : updatePlan req with
    | error msg => exact Or.inr ⟨msg, rfl⟩
    | ok p => exact Or.inl ⟨p.1, p.2, rfl⟩

/-- C8 (witness): the removal of `x1` against a Record Store that rejects the
write; and the same request with the colors text `red,blue`, which fails to
decode, issues no delete. -/
theorem updateCatalog_deletes_before_write_witness :
    envNoWrite.findFails shirtWorld removeX1.id = none ∧
    findRecord removeX1.id shirtWorld.records = some { id := "1", doc := shirtDoc } ∧
    deleteList removeX1.body = some [JsVal.str "x1"] ∧
    (updateCatalog envNoWrite shirtWorld removeX1).1.calls =
      shirtWorld.calls ++ [Call.findById removeX1.id] ++
        [JsVal.str "x1"].map Call.destroy ++
        [Call.findByIdAndUpdate removeX1.id removeX1.body] ∧
    (updateCatalog envNoWrite shirtWorld removeX1).2 = respondFail 400 "write failed" ∧
    (updateCatalog envNoWrite shirtWorld removeX1).1.records = shirtWorld.records ∧
    (updateCatalog envOk shirtWorld
        (Req.mk (("colors", JsVal.str "red,blue") :: removeX1.body) none "1")).1.calls =
      shirtWorld.calls ++ [Call.findById "1"] :=
  have h := (updateCatalog_deletes_before_write envNoWrite shirtWorld removeX1
    { id := "1", doc := shirtDoc } (by rfl) (by decide)).1 removeX1.body [JsVal.str "x1"]
      (by rfl)
  have h2 := (updateCatalog_deletes_before_write envOk shirtWorld
    (Req.mk (("colors", JsVal.str "red,blue") :: removeX1.body) none "1")
    { id := "1", doc := shirtDoc } (by rfl) (by decide)).2.1 "JSON.parse(req.body.colors)"
      (by rfl)
  ⟨by rfl, by decide, h.1, h.2.1, (h.2.2 "write failed" (by rfl)).1,
    (h.2.2 "write failed" (by rfl)).2, h2.2.1⟩

/-- Without a new file, the decoded request leaves the key `productImages` of
the body as it is. -/
theorem updatePlan_no_files (req : Req) (u : List (String × JsVal)) (ids : List JsVal)
    (hfiles : req.files = none ∨ req.files = some [])
    (hplan : updatePlan req = Except.ok (u, ids)) :
    getKey "productImages" u = getKey "productImages" req.body := by
  have hpu : ∀ (k : String) (b0 b1 b2 : List (String × JsVal)), k ≠ "productImages" →
      parseUpdate k b0 b1 = some b2 → getKey "productImages" b2 = getKey "productImages" b1 := by
    intro k b0 b1 b2 hk hp
    unfold parseUpdate at hp
    split at hp
    · split at hp
      · cases hp
      · cases hp
        exact getKey_setKey_ne _ _ _ _ hk
    · cases hp
      rfl
  have himg : ∀ b1 b2, updateImages req b1 = some b2 → b2 = b1 := by
    intro b1 b2 hi
    rcases hfiles with hf | hf <;> simp [updateImages, hf] at hi <;> exact hi.symm
  unfold updatePlan at hplan
  cases h1 : parseUpdate "colors" req.body req.body with
  | none => simp [h1] at hplan
  | some u1 =>
    cases h2 : parseUpdate "sizes" req.body u1 with
    | none => simp [h1, h2] at hplan
    | some u2 =>
      cases h3 : updateImages req u2 with
      | none => simp [h1, h2, h3] at hplan
      | some u3 =>
        cases h4 : deleteList req.body with
        | none => simp [h1, h2, h3, h4] at hplan
        | some ids2 =>
          simp only [h1, h2, h3, h4, Except.ok.injEq, Prod.mk.injEq] at hplan
          obtain ⟨hu, _⟩ := hplan
          subst hu
          rw [himg u2 u3 h3, hpu "sizes" req.body u1 u2 (by decide) h2,
            hpu "colors" req.body req.body u1 (by decide) h1]

/-- C9 (counterexample): the scenario of the specification.  Record `1` has
the images `x1`, `x2`; the update with `deletedImages = ["x1"]` answers 200
and issues one delete for `x1`, but the resulting record still lists `x1`. -/
theorem updateCatalog_removed_image_stays :
    (updateCatalog envOk shirtWorld removeX1).2.status = 200 ∧
    (updateCatalog envOk shirtWorld removeX1).1.calls =
      [Call.findById "1", Call.destroy (JsVal.str "x1"),
        Call.findByIdAndUpdate "1" removeX1.body] ∧
    ((updateCatalog envOk shirtWorld removeX1).1.records.map
      (fun r => r.doc.productImages)) = [JsVal.arr [imageX1.toJs, imageX2.toJs]] ∧
    imageX1.publicId = "x1" ∧
    (updateCatalog envOk shirtWorld removeX1).1.objects = ["x2"] := by
  decide

/-- C9 (amended): when updateCatalog answers 200, the calls of the request are
the lookup, one Object Store delete per entry of the decoded `deletedImages`
in list order, and the write; the image list of the record is not filtered by
`deletedImages`: for a request without a new file and without a
`productImages` field it is the stored list, unchanged. -/
theorem updateCatalog_remove_images (env : Env) (w : World) (req : Req)
    (h : (updateCatalog env w req).2.status = 200) :
    ∃ (ids : List JsVal) (u : List (String × JsVal)) (old : Record),
      deleteList req.body = some ids ∧
      (updateCatalog env w req).1.calls =
        w.calls ++ [Call.findById req.id] ++ ids.map Call.destroy ++
          [Call.findByIdAndUpdate req.id u] ∧
      findRecord req.id w.records = some old ∧
      findRecord req.id (updateCatalog env w req).1.records =
        some { old with doc := mergeDoc old.doc u } ∧
      (updateCatalog env w req).2.data = some (mergeDoc old.doc u) ∧
      ((req.files = none ∨ req.files = some []) →
        getKey "productImages" req.body = none →
        (mergeDoc old.doc u).productImages = old.doc.productImages) := by
  obtain ⟨old, u, ids, hfind, hrec, hplan, _, hrun⟩ := updateCatalog_updated env w req h
  refine ⟨ids, u, old, updatePlan_deleteList req u ids hplan,
    updateCatalog_calls env w req old u ids hfind hrec hplan, hrec, ?_, ?_, ?_⟩
  · rw [hrun]
    exact findRecord_updateRecords req.id u w.records old hrec
  · rw [hrun]
    rfl
  · intro hfiles hbody
    have := updatePlan_no_files req u ids hfiles hplan
    simp [mergeDoc, this, hbody]

/-- C9 (witness): the removal of `x1` from record `1` with no new file. -/
theorem updateCatalog_remove_images_witness :
    (updateCatalog envOk shirtWorld removeX1).2.status = 200 ∧
    ∃ (ids : List JsVal) (u : List (String × JsVal)) (old : Record),
      deleteList removeX1.body = some ids ∧
      (updateCatalog envOk shirtWorld removeX1).1.calls =
        shirtWorld.calls ++ [Call.findById removeX1.id] ++ ids.map Call.destroy ++
          [Call.findByIdAndUpdate removeX1.id u] ∧
      findRecord removeX1.id shirtWorld.records = some old ∧
      findRecord removeX1.id (updateCatalog envOk shirtWorld removeX1).1.records =
        some { old with doc := mergeDoc old.doc u } ∧
      (updateCatalog envOk shirtWorld removeX1).2.data = some (mergeDoc old.doc u) ∧
      ((removeX1.files = none ∨ removeX1.files = some []) →
        getKey "productImages" removeX1.body = none →
        (mergeDoc old.doc u).productImages = old.doc.productImages) :=
  ⟨by decide, updateCatalog_remove_images envOk shirtWorld removeX1 (by decide)⟩

/-- C10 (counterexample): the structured list `["red","blue"]` is accepted by
the decode of createCatalog and rejected by updateCatalog (400); the text `[]`
is rejected by createCatalog (400) and accepted by updateCatalog, which stores
the empty list. -/
theorem update_decode_differs :
    createChecks (shirtWithColors (JsVal.arr [JsVal.str "red", JsVal.str "blue"])) =
      Checked.pass (JsVal.arr [JsVal.str "red", JsVal.str "blue"])
        (JsVal.arr [JsVal.str "M", JsVal.str "L"]) ∧
    parseUpdate "colors" (recolor (JsVal.arr [JsVal.str "red", JsVal.str "blue"])).body
      (recolor (JsVal.arr [JsVal.str "red", JsVal.str "blue"])).body = none ∧
    (updateCatalog envOk shirtWorld
      (recolor (JsVal.arr [JsVal.str "red", JsVal.str "blue"]))).2.status = 400 ∧
    createChecks (shirtWithColors (JsVal.str "[]")) =
      Checked.respond (respondFail 400 "Minimal 1 warna harus ditambahkan") ∧
    (updateCatalog envOk shirtWorld (recolor (JsVal.str "[]"))).2.status = 200 ∧
    ((updateCatalog envOk shirtWorld (recolor (JsVal.str "[]"))).1.records.map
      (fun r => r.doc.colors)) = [JsVal.arr []] := by
  decide

theorem parseUpdate_of_truthy (k : String) (body b1 b2 : List (String × JsVal))
    (ht : truthy (field body k) = true) (h : parseUpdate k body b1 = some b2) :
    ∃ v, jsonParse (field body k) = some v ∧ b2 = setKey k v b1 := by
  unfold parseUpdate at h
  rw [if_pos ht] at h
  cases hj : jsonParse (field body k) with
  | none => simp [hj] at h
  | some v =>
    simp only [hj, Option.some.injEq] at h
    exact ⟨v, rfl, h.symm⟩

theorem parseUpdate_getKey_ne (k j : String) (body b1 b2 : List (String × JsVal))
    (hne : k ≠ j) (h : parseUpdate k body b1 = some b2) : getKey j b2 = getKey j b1 := by
  unfold parseUpdate at h
  split at h
  · split at h
    · cases h
    · cases h
      exact getKey_setKey_ne _ _ _ _ hne
  · cases h
    rfl

theorem updateImages_getKey (req : Req) (j : String) (b1 b2 : List (String × JsVal))
    (hne : "productImages" ≠ j) (h : updateImages req b1 = some b2) :
    getKey j b2 = getKey j b1 := by
  have hshape : b2 = b1 ∨ ∃ v, b2 = setKey "productImages" v b1 := by
    unfold updateImages at h
    cases hf : req.files with
    | none =>
      simp only [hf, Option.some.injEq] at h
      exact Or.inl h.symm
    | some fs =>
      simp only [hf] at h
      by_cases hl : (fs.length != 0) = true
      · rw [if_pos hl] at h
        cases hex : (if truthy (field req.body "existingImages") = true then
            jsonParse (field req.body "existingImages") else some (JsVal.arr [])) with
        | none => simp [hex] at h
        | some ev =>
          simp only [hex] at h
          cases hi : iterate ev with
          | none => simp [hi] at h
          | some ex =>
            simp only [hi, Option.some.injEq] at h
            exact Or.inr ⟨_, h.symm⟩
      · rw [if_neg hl] at h
        simp only [Option.some.injEq] at h
        exact Or.inl h.symm
  rcases hshape with h1 | ⟨v, h1⟩
  · rw [h1]
  · rw [h1]
    exact getKey_setKey_ne _ _ _ _ hne

/-- The value that a decoded update request writes for `colors` and `sizes`. -/
theorem updatePlan_key (req : Req) (k : String) (hk : k = "colors" ∨ k = "sizes")
    (u : List (String × JsVal)) (ids : List JsVal)
    (ht : truthy (field req.body k) = true) (hplan : updatePlan req = Except.ok (u, ids)) :
    ∃ v, jsonParse (field req.body k) = some v ∧ getKey k u = some v := by
  unfold updatePlan at hplan
  cases h1 : parseUpdate "colors" req.body req.body with
  | none => simp [h1] at hplan
  | some u1 =>
    cases h2 : parseUpdate "sizes" req.body u1 with
    | none => simp [h1, h2] at hplan
    | some u2 =>
      cases h3 : updateImages req u2 with
      | none => simp [h1, h2, h3] at hplan
      | some u3 =>
        cases h4 : deleteList req.body with
        | none => simp [h1, h2, h3, h4] at hplan
        | some ids2 =>
          simp only [h1, h2, h3, h4, Except.ok.injEq, Prod.mk.injEq] at hplan
          obtain ⟨hu, _⟩ := hplan
          subst hu
          rcases hk with hk | hk
          · subst hk
            obtain ⟨v, hv, hb⟩ := parseUpdate_of_truthy "colors" req.body req.body u1 ht h1
            refine ⟨v, hv, ?_⟩
            rw [updateImages_getKey req "colors" u2 u3 (by decide) h3,
              parseUpdate_getKey_ne "sizes" "colors" req.body u1 u2 (by decide) h2, hb]
            exact getKey_setKey_self _ _ _
          · subst hk
            obtain ⟨v, hv, hb⟩ := parseUpdate_of_truthy "sizes" req.body u1 u2 ht h2
            refine ⟨v, hv, ?_⟩
            rw [updateImages_getKey req "sizes" u2 u3 (by decide) h3, hb]
            exact getKey_setKey_self _ _ _

/-- A `colors` or `sizes` text that fails to decode stops the decoding of an
update request. -/
theorem updatePlan_of_bad_key (req : Req) (k : String) (hk : k = "colors" ∨ k = "sizes")
    (ht : truthy (field req.body k) = true) (hj : jsonParse (field req.body k) = none) :
    ∃ msg, updatePlan req = Except.error msg := by
  cases hplan : updatePlan req with
  | error msg => exact ⟨msg, rfl⟩
  | ok p =>
    obtain ⟨u, ids⟩ := p
    obtain ⟨v, hv, _⟩ := updatePlan_key req k hk u ids ht hplan
    rw [hj] at hv
    cases hv

/-- The handler on a request that fails to decode: the lookup is its only
call and the answer is not 200. -/
theorem updateCatalog_of_undecoded (env : Env) (w : World) (req : Req) (msg : String)
    (hplan : updatePlan req = Except.error msg) :
    (updateCatalog env w req).1 = logCall w (Call.findById req.id) ∧
    (updateCatalog env w req).2.status ≠ 200 ∧
    (∀ old, env.findFails w req.id = none → findRecord req.id w.records = some old →
      (updateCatalog env w req).2.status = 400) := by
  cases hfind : env.findFails w req.id with
  | some m => simp [updateCatalog, updateTry, findById, hfind, respondFail]
  | none =>
    cases hrec : findRecord req.id w.records with
    | none => simp [updateCatalog, updateTry, findById, hfind, hrec, respondFail]
    | some old => simp [updateCatalog, updateTry, findById, hfind, hrec, hplan, respondFail]

/-- C10 (amended): for a `colors` or `sizes` value that is present and is not
a structured list, updateCatalog decodes exactly as createCatalog does, with
JSON.parse.  When the decode succeeds, the value that updateCatalog writes is
the decoded value, the one that createCatalog hands to its save whenever it
accepts the request.  When the decode fails, createCatalog answers 400 and
updateCatalog rejects the request: the handler makes no call but the lookup
of the record, and on the route `PATCH /:id`, whose upload middleware runs
before the handler, the Record Store is unchanged. -/
theorem updateCatalog_decode (body : List (String × JsVal)) (k : String)
    (hk : k = "colors" ∨ k = "sizes") (hlist : isArray (field body k) = false)
    (ht : truthy (field body k) = true) :
    (∀ u, parseUpdate k body u = (parseCreate (field body k)).map (fun v => setKey k v u)) ∧
    (∀ pc, jsonParse (field body k) = some pc →
      (∀ files id u ids, updatePlan (Req.mk body files id) = Except.ok (u, ids) →
        getKey k u = some pc) ∧
      (∀ creq pc1 ps1, field creq.body k = field body k →
        createChecks creq = Checked.pass pc1 ps1 →
        (if k = "colors" then pc1 else ps1) = pc)) ∧
    (jsonParse (field body k) = none →
      (∀ creq, field creq.body k = field body k →
        ∃ r, createChecks creq = Checked.respond r ∧ r.status = 400) ∧
      (∀ files id, ∃ msg, updatePlan (Req.mk body files id) = Except.error msg) ∧
      (∀ env w files id,
        (updateCatalog env w (Req.mk body files id)).1 = logCall w (Call.findById id) ∧
        (updateCatalog env w (Req.mk body files id)).2.status ≠ 200 ∧
        (∀ old, env.findFails w id = none → findRecord id w.records = some old →
          (updateCatalog env w (Req.mk body files id)).2.status = 400)) ∧
      (∀ env w id aborted,
        (patchCatalog env w id body none aborted).1.records = w.records ∧
        (patchCatalog env w id body none aborted).2.status ≠ 200) ∧
      (∀ env w w1 id parts files aborted,
        uploadArray env w parts [] = (w1, Except.ok files) →
        (patchCatalog env w id body (some parts) aborted).1.records = w.records ∧
        (patchCatalog env w id body (some parts) aborted).2.status ≠ 200)) := by
  have hcreate : parseCreate (field body k) = jsonParse (field body k) := by
    rw [parseCreate_eq]
    simp [ht, hlist]
  refine ⟨?_, ?_, ?_⟩
  · intro u
    unfold parseUpdate
    rw [hcreate, if_pos ht]
    cases jsonParse (field body k) <;> rfl
  · intro pc hj
    refine ⟨?_, ?_⟩
    · intro files id u ids hplan
      obtain ⟨v, hv, hkey⟩ := updatePlan_key (Req.mk body files id) k hk u ids ht hplan
      have hv2 : jsonParse (field body k) = some v := hv
      rw [hj] at hv2
      cases hv2
      exact hkey
    · intro creq pc1 ps1 hsame hpass
      obtain ⟨_, _, hc, hs, _⟩ := (createChecks_pass_iff creq pc1 ps1).1 hpass
      rcases hk with hk | hk
      · subst hk
        rw [hsame, hcreate, hj] at hc
        simp only [if_true]
        exact (Option.some.inj hc).symm
      · subst hk
        rw [hsame, hcreate, hj] at hs
        simp only [show ("sizes" = "colors") = False from by decide, if_false]
        exact (Option.some.inj hs).symm
  · intro hj
    have hplan : ∀ files id, ∃ msg, updatePlan (Req.mk body files id) = Except.error msg :=
      fun files id => updatePlan_of_bad_key (Req.mk body files id) k hk ht hj
    refine ⟨?_, hplan, ?_, ?_, ?_⟩
    · intro creq hsame
      cases hck : createChecks creq with
      | respond r => exact ⟨r, rfl, createChecks_respond_status creq r hck⟩
      | throw msg =>
        exfalso
        obtain ⟨pc1, ps1, hc, hs, _⟩ := createChecks_throw creq msg hck
        rcases hk with hk | hk
        · subst hk
          rw [hsame, hcreate, hj] at hc
          cases hc
        · subst hk
          rw [hsame, hcreate, hj] at hs
          cases hs
      | pass pc1 ps1 =>
        exfalso
        obtain ⟨_, _, hc, hs, _⟩ := (createChecks_pass_iff creq pc1 ps1).1 hck
        rcases hk with hk | hk
        · subst hk
          rw [hsame, hcreate, hj] at hc
          cases hc
        · subst hk
          rw [hsame, hcreate, hj] at hs
          cases hs
    · intro env w files id
      obtain ⟨msg, hp⟩ := hplan files id
      exact updateCatalog_of_undecoded env w (Req.mk body files id) msg hp
    · intro env w id aborted
      obtain ⟨msg, hp⟩ := hplan none id
      have h := updateCatalog_of_undecoded env w (Req.mk body none id) msg hp
      refine ⟨?_, h.2.1⟩
      show (updateCatalog env w (Req.mk body none id)).1.records = w.records
      rw [h.1]
      rfl
    · intro env w w1 id parts files aborted hup
      obtain ⟨msg, hp⟩ := hplan (some files) id
      have h := updateCatalog_of_undecoded env w1 (Req.mk body (some files) id) msg hp
      obtain ⟨_, _, _, hrec, _, _⟩ := uploadArray_ok env parts w w1 [] files hup
      have hrun : patchCatalog env w id body (some parts) aborted =
          updateCatalog env w1 (Req.mk body (some files) id) := by
        simp [patchCatalog, hup]
      rw [hrun]
      refine ⟨?_, h.2.1⟩
      rw [h.1]
      exact hrec

/-- C10 (witness): the colors text of "Shirt A" is decoded by both handlers to
the same list; the colors text `red,blue` is rejected by both, and a PATCH
request carrying it together with one file leaves the Record Store as it
was. -/
theorem updateCatalog_decode_witness :
    parseUpdate "colors" shirtBody [] =
      some [("colors", JsVal.arr [JsVal.str "red", JsVal.str "blue"])] ∧
    (updateCatalog envOk shirtWorld (recolor (JsVal.str "red,blue"))).1 =
      logCall shirtWorld (Call.findById "1") ∧
    (updateCatalog envOk shirtWorld (recolor (JsVal.str "red,blue"))).2.status = 400 ∧
    (patchCatalog envOk shirtWorld "1" (recolor (JsVal.str "red,blue")).body
      (some ["n1.png"]) none).1.records = shirtWorld.records ∧
    (patchCatalog envOk shirtWorld "1" (recolor (JsVal.str "red,blue")).body
      (some ["n1.png"]) none).1.objects = ["x1", "x2", "katalog-n1.png"] :=
  have hgood := (updateCatalog_decode shirtBody "colors" (Or.inl rfl) (by decide)
    (by decide)).1 []
  have hbad := (updateCatalog_decode (recolor (JsVal.str "red,blue")).body "colors"
    (Or.inl rfl) (by decide) (by decide)).2.2 (by decide)
  ⟨by rw [hgood]; decide,
    (hbad.2.2.1 envOk shirtWorld none "1").1,
    (hbad.2.2.1 envOk shirtWorld none "1").2.2 { id := "1", doc := shirtDoc } (by rfl)
      (by decide),
    (hbad.2.2.2.2 envOk shirtWorld
      { records := shirtWorld.records, objects := ["x1", "x2", "katalog-n1.png"],
        calls := [Call.upload "katalog-n1.png"] }
      "1" ["n1.png"] [UploadedFile.mk "https://cdn/n1.png" "katalog-n1.png"] none
      (by rfl)).1,
    by decide⟩

/-! ## deleteCatalog -/

/-- On well-formed image entries the loop of deleteCatalog is the delete loop
over their storage ids, and it does not throw. -/
theorem destroyImages_toJs (env : Env) (w : World) (imgs : List ImageRef) :
    destroyImages env w (imgs.map ImageRef.toJs) =
      (destroyAll env w (imgs.map (fun i => JsVal.str i.publicId)), Except.ok ()) := by
  induction imgs generalizing w with
  | nil => rfl
  | cons i rest ih =>
    simp only [List.map_cons, destroyImages, destroyAll]
    have : getProp i.toJs "publicId" = some (JsVal.str i.publicId) := by
      simp [getProp, ImageRef.toJs, field, getKey]
    rw [this]
    exact ih _

theorem findRecord_eq_none (id : String) (rs : List Record)
    (h : id ∉ rs.map (fun r => r.id)) : findRecord id rs = none := by
  induction rs with
  | nil => rfl
  | cons r rest ih =>
    simp only [List.map_cons, List.mem_cons, not_or] at h
    have hne : ¬ r.id = id := fun e => h.1 e.symm
    simp [findRecord, hne, ih h.2]

theorem findRecord_deleteRecord (id : String) (rs : List Record)
    (h : (rs.map (fun r => r.id)).Nodup) : findRecord id (deleteRecord id rs) = none := by
  induction rs with
  | nil => rfl
  | cons r rest ih =>
    simp only [List.map_cons, List.nodup_cons] at h
    by_cases hr : r.id = id
    · simp only [deleteRecord, hr, if_true]
      exact findRecord_eq_none id rest (hr ▸ h.1)
    · simp [deleteRecord, findRecord, hr, ih h.2]

/-- The run of deleteCatalog on a record that is found and whose image list
is well formed. -/
theorem deleteCatalog_of_found (env : Env) (w : World) (req : Req) (old : Record)
    (imgs : List ImageRef) (hfind : env.findFails w req.id = none)
    (hrec : findRecord req.id w.records = some old)
    (himgs : old.doc.productImages = JsVal.arr (imgs.map ImageRef.toJs)) :
    deleteCatalog env w req =
      match findByIdAndDelete env
        (destroyAll env (logCall w (Call.findById req.id))
          (imgs.map (fun i => JsVal.str i.publicId))) req.id with
      | (w2, Except.error msg) => (w2, respondFail 500 msg)
      | (w2, Except.ok _) => (w2, respondOk 200 "Catalog berhasil dihapus" none) := by
  simp only [deleteCatalog, deleteTry, findById, hfind, hrec, himgs, iterate, destroyImages_toJs]
  generalize findByIdAndDelete env
    (destroyAll env (logCall w (Call.findById req.id))
      (imgs.map (fun i => JsVal.str i.publicId))) req.id = res
  obtain ⟨w2, r⟩ := res
  cases r <;> rfl

theorem destroyImages_records (env : Env) (w : World) (es : List JsVal) :
    (destroyImages env w es).1.records = w.records := by
  induction es generalizing w with
  | nil => rfl
  | cons e rest ih =>
    unfold destroyImages
    cases getProp e "publicId" with
    | none => rfl
    | some publicId =>
      simp only []
      rw [ih, destroyOne_records]

/-- When `publicId` can be read from every entry, the loop of deleteCatalog is
the delete loop over the values read, and it does not throw. -/
theorem destroyImages_readable (env : Env) (w : World) (es : List JsVal)
    (h : ∀ e ∈ es, (getProp e "publicId").isSome = true) :
    destroyImages env w es =
      (destroyAll env w (es.map (fun e => (getProp e "publicId").getD JsVal.undefined)),
        Except.ok ()) := by
  induction es generalizing w with
  | nil => rfl
  | cons e rest ih =>
    have he := h e (List.mem_cons_self e rest)
    cases hp : getProp e "publicId" with
    | none => simp [hp] at he
    | some publicId =>
      simp only [destroyImages, hp, List.map_cons, destroyAll, Option.getD_some]
      exact ih _ (fun x hx => h x (List.mem_cons_of_mem e hx))

/-- The run of deleteCatalog on a record that is found and from whose entries
`publicId` can be read. -/
theorem deleteCatalog_of_readable (env : Env) (w : World) (req : Req) (old : Record)
    (es : List JsVal) (hfind : env.findFails w req.id = none)
    (hrec : findRecord req.id w.records = some old)
    (hiter : iterate old.doc.productImages = some es)
    (hread : ∀ e ∈ es, (getProp e "publicId").isSome = true) :
    deleteCatalog env w req =
      match findByIdAndDelete env
        (destroyAll env (logCall w (Call.findById req.id))
          (es.map (fun e => (getProp e "publicId").getD JsVal.undefined))) req.id with
      | (w2, Except.error msg) => (w2, respondFail 500 msg)
      | (w2, Except.ok _) => (w2, respondOk 200 "Catalog berhasil dihapus" none) := by
  simp only [deleteCatalog, deleteTry, findById, hfind, hrec, hiter,
    destroyImages_readable env _ es hread]
  generalize findByIdAndDelete env
    (destroyAll env (logCall w (Call.findById req.id))
      (es.map (fun e => (getProp e "publicId").getD JsVal.undefined))) req.id = res
  obtain ⟨w2, r⟩ := res
  cases r <;> rfl

/-- A 200 answer of deleteCatalog comes from the one exit after the delete of
the record. -/
theorem deleteCatalog_deleted (env : Env) (w : World) (req : Req)
    (h : (deleteCatalog env w req).2.status = 200) :
    (deleteCatalog env w req).1.records = deleteRecord req.id w.records := by
  unfold deleteCatalog deleteTry findById at *
  cases hfind : env.findFails w req.id with
  | some msg => simp [hfind, respondFail] at h
  | none =>
    cases hrec : findRecord req.id w.records with
    | none => simp [hfind, hrec, respondFail] at h
    | some old =>
      cases hiter : iterate old.doc.productImages with
      | none => simp [hfind, hrec, hiter, respondFail] at h
      | some es =>
        have hr := destroyImages_records env (logCall w (Call.findById req.id)) es
        cases hd : destroyImages env (logCall w (Call.findById req.id)) es with
        | mk w1 r1 =>
          rw [hd] at hr
          cases r1 with
          | error msg => simp [hfind, hrec, hiter, hd, respondFail] at h
          | ok u =>
            cases hdel : env.deleteFails w1 req.id with
            | some msg =>
              simp [hfind, hrec, hiter, hd, findByIdAndDelete, hdel, respondFail] at h
            | none =>
              simp only [hfind, hrec, hiter, hd, findByIdAndDelete, hdel]
              show deleteRecord req.id w1.records = deleteRecord req.id w.records
              rw [show w1.records = w.records from hr]

/-- C11 (counterexample): record `1` is present and every Object Store delete
succeeds, but the Record Store rejects the delete of the record: deleteCatalog
has deleted both images, answers 500, and the record is still stored. -/
theorem deleteCatalog_record_delete_rejected :
    findRecord deleteOne.id shirtWorld.records = some { id := "1", doc := shirtDoc } ∧
    (deleteCatalog envNoDelete shirtWorld deleteOne).1.calls =
      [Call.findById "1", Call.destroy (JsVal.str "x1"), Call.destroy (JsVal.str "x2"),
        Call.findByIdAndDelete "1"] ∧
    (deleteCatalog envNoDelete shirtWorld deleteOne).2 = respondFail 500 "delete failed" ∧
    (deleteCatalog envNoDelete shirtWorld deleteOne).1.objects = [] ∧
    (deleteCatalog envNoDelete shirtWorld deleteOne).1.records = shirtWorld.records := by
  decide

/-- C11 (amended): for a request whose id is in the Record Store (ids being
unique keys), and for every behaviour of the Object Store deletes.  Once the
lookup is answered and `publicId` can be read from every entry of the image
list, deleteCatalog issues one Object Store delete per entry, for the
`publicId` read from it and in list order, and only then the delete of the
record; when the Record Store performs that delete the answer is the 200
success and the store has no entry for the id; when it rejects it the answer
is 500 and the record is kept.  For a record whose entries are image
references the deletes are those of their storage ids.  Whenever the answer
is 200 the store has no entry for the id. -/
theorem deleteCatalog_existing (env : Env) (w : World) (req : Req) (old : Record)
    (hrec : findRecord req.id w.records = some old)
    (hkeys : (w.records.map (fun r => r.id)).Nodup) :
    (∀ es, env.findFails w req.id = none → iterate old.doc.productImages = some es →
      (∀ e ∈ es, (getProp e "publicId").isSome = true) →
      (deleteCatalog env w req).1.calls =
        w.calls ++ [Call.findById req.id] ++
          es.map (fun e => Call.destroy ((getProp e "publicId").getD JsVal.undefined)) ++
          [Call.findByIdAndDelete req.id] ∧
      (env.deleteFails
          (destroyAll env (logCall w (Call.findById req.id))
            (es.map (fun e => (getProp e "publicId").getD JsVal.undefined))) req.id = none →
        (deleteCatalog env w req).2 = respondOk 200 "Catalog berhasil dihapus" none ∧
        (deleteCatalog env w req).1.records = deleteRecord req.id w.records ∧
        findRecord req.id (deleteCatalog env w req).1.records = none) ∧
      (∀ msg, env.deleteFails
          (destroyAll env (logCall w (Call.findById req.id))
            (es.map (fun e => (getProp e "publicId").getD JsVal.undefined))) req.id =
            some msg →
        (deleteCatalog env w req).2 = respondFail 500 msg ∧
        (deleteCatalog env w req).1.records = w.records)) ∧
    (∀ imgs : List ImageRef, old.doc.productImages = JsVal.arr (imgs.map ImageRef.toJs) →
      iterate old.doc.productImages = some (imgs.map ImageRef.toJs) ∧
      (∀ e ∈ imgs.map ImageRef.toJs, (getProp e "publicId").isSome = true) ∧
      (imgs.map ImageRef.toJs).map
          (fun e => Call.destroy ((getProp e "publicId").getD JsVal.undefined)) =
        imgs.map (fun i => Call.destroy (JsVal.str i.publicId))) ∧
    ((deleteCatalog env w req).2.status = 200 →
      findRecord req.id (deleteCatalog env w req).1.records = none) := by
  refine ⟨?_, ?_, ?_⟩
  · intro es hfind hiter hread
    have hrun := deleteCatalog_of_readable env w req old es hfind hrec hiter hread
    refine ⟨?_, ?_, ?_⟩
    · rw [hrun]
      cases hdel : env.deleteFails
          (destroyAll env (logCall w (Call.findById req.id))
            (es.map (fun e => (getProp e "publicId").getD JsVal.undefined))) req.id <;>
        simp only [findByIdAndDelete, hdel] <;>
        simp [logCall, destroyAll_calls, List.map_map, Function.comp_def]
    · intro hdel
      rw [hrun]
      simp only [findByIdAndDelete, hdel]
      refine ⟨trivial, ?_, ?_⟩
      · simp [logCall, destroyAll_records]
      · simp only [logCall, destroyAll_records]
        exact findRecord_deleteRecord req.id w.records hkeys
    · intro msg hdel
      rw [hrun]
      simp only [findByIdAndDelete, hdel]
      refine ⟨trivial, ?_⟩
      simp [logCall, destroyAll_records]
  · intro imgs himgs
    refine ⟨by rw [himgs]; rfl, ?_, ?_⟩
    · intro e he
      obtain ⟨i, _, rfl⟩ := List.mem_map.1 he
      rw [(getProp_toJs i).2.1]
      rfl
    · rw [List.map_map]
      apply List.map_congr_left
      intro i _
      simp [Function.comp, (getProp_toJs i).2.1]
  · intro hok
    rw [deleteCatalog_deleted env w req hok]
    exact findRecord_deleteRecord req.id w.records hkeys

/-- C11 (witness): the delete of record `1`, whose images are `x1` and `x2`,
against an Object Store that rejects every delete. -/
theorem deleteCatalog_existing_witness :
    findRecord deleteOne.id shirtWorld.records = some { id := "1", doc := shirtDoc } ∧
    shirtDoc.productImages = JsVal.arr ([imageX1, imageX2].map ImageRef.toJs) ∧
    (deleteCatalog envNoDestroy shirtWorld deleteOne).1.calls =
      shirtWorld.calls ++ [Call.findById deleteOne.id] ++
        [imageX1, imageX2].map (fun i => Call.destroy (JsVal.str i.publicId)) ++
        [Call.findByIdAndDelete deleteOne.id] ∧
    (deleteCatalog envNoDestroy shirtWorld deleteOne).2 =
      respondOk 200 "Catalog berhasil dihapus" none ∧
    (deleteCatalog envNoDestroy shirtWorld deleteOne).1.objects = ["x1", "x2"] ∧
    findRecord deleteOne.id (deleteCatalog envNoDestroy shirtWorld deleteOne).1.records = none :=
  have h := deleteCatalog_existing envNoDestroy shirtWorld deleteOne
    { id := "1", doc := shirtDoc } (by decide) (by decide)
  have hA := h.1 ([imageX1, imageX2].map ImageRef.toJs) (by rfl) (by rfl) (by decide)
  ⟨by decide, by decide, hA.1, (hA.2.1 (by rfl)).1, by decide, h.2.2 (by decide)⟩

/-! ## sanitizeInput -/

mutual
/-- What `sanitize` does achieve: afterwards no key, at any depth, is one that
the test of line 90 deletes. -/
theorem sanitize_no_deletable_key : ∀ (v : JsVal), hasDeletableKey (sanitize v) = false
  | .undefined => by simp [sanitize, hasDeletableKey]
  | .null => by simp [sanitize, hasDeletableKey]
  | .bool _ => by simp [sanitize, hasDeletableKey]
  | .num _ _ => by simp [sanitize, hasDeletableKey]
  | .str _ => by simp [sanitize, hasDeletableKey]
  | .arr xs => by simpa [sanitize, hasDeletableKey] using sanitizeItems_no_deletable_key xs
  | .obj kvs => by simpa [sanitize, hasDeletableKey] using sanitizeKeys_no_deletable_key kvs
theorem sanitizeKeys_no_deletable_key :
    ∀ (kvs : List (String × JsVal)), membersDeletable (sanitizeKeys kvs) = false
  | [] => by simp [sanitizeKeys, membersDeletable]
  | (key, v) :: rest => by
    by_cases h : deletesKey key = true
    · simpa [sanitizeKeys, h] using sanitizeKeys_no_deletable_key rest
    · simp [sanitizeKeys, membersDeletable, h, sanitize_no_deletable_key v,
        sanitizeKeys_no_deletable_key rest]
theorem sanitizeItems_no_deletable_key :
    ∀ (xs : List JsVal), itemsDeletable (sanitizeItems xs) = false
  | [] => by simp [sanitizeItems, itemsDeletable]
  | x :: rest => by
    simp [sanitizeItems, itemsDeletable, sanitize_no_deletable_key x,
      sanitizeItems_no_deletable_key rest]
end

/-- C12 (failing input): for the query string `?a$b=1` sanitizeInput returns
the request unchanged: the key `a$b` contains `$` but does not start with it,
so the test of line 90 keeps it, and a key containing `$` remains. -/
theorem sanitizeInput_keeps_dollar_key :
    keyContains '$' "a$b" = true ∧
    deletesKey "a$b" = false ∧
    sanitizeInput dollarQuery = dollarQuery ∧
    (sanitizeInput dollarQuery).query = JsVal.obj [("a$b", JsVal.str "1")] ∧
    hasMarkedKey (sanitizeInput dollarQuery).query = true := by
  decide

end Ethereal
